import Mathlib

/-!
# fabber-matlab: the MATLAB binding of the Fabber model-fitting engine

A shallow embedding of `src/fabber_wrapper.cpp` (the current binding) and of the
parts of `src/fabber.cpp` (its earlier version) that differ from it.

Conventions of the embedding.

* An `mxArray` is a record of its class, complexity flag, dimension list and data
  buffer.  The element types `double` and `float` are the type parameters `R` and
  `S`; the narrowing conversion between them and the text a stream writes for a
  `double` are function parameters.
* `mexErrMsgIdAndTxt(id, msg)` does not return: a function that may call it yields
  `Except String _`, the string being the message identifier of the source.
* The engine object (`FabberRunDataArray`) is code of another library.  What the
  binding does to it is recorded as the sequence of calls made on it; the boolean
  switches `get_outputs` reads are given as the function `GetBool`.
* `mexPrintf` and `debug` output is not modelled.
* A `for` loop counting up to a bound is a recursion on the number of iterations
  left, carrying the loop index.
* Sizes and indices are natural numbers.  Where the source stores a dimension in a
  narrower integer (`unsigned int data_size`, the `int` bounds of
  `matrix_to_tempfile`, the `int` extent of `set_extent`) the conversion is written
  out.  The `int` index of `matrix_to_tempfile` and the `int` products of
  `set_extent` are checked for overflow, which has no defined behaviour; the `int`
  counter of the copy loop of `add_data` is taken not to overflow.
* A step without defined behaviour in C++ (a read past a buffer, a null pointer
  turned into a `std::string`) is reported as the error `undefined_behaviour`, or as
  `none` inside a loop.
-/

namespace Fabber

/-! ## Host arrays -/

/-- The class identifiers of `mex.h` (`mxClassID`). -/
inductive mxClassID
  | mxUNKNOWN_CLASS
  | mxCELL_CLASS
  | mxSTRUCT_CLASS
  | mxLOGICAL_CLASS
  | mxCHAR_CLASS
  | mxVOID_CLASS
  | mxDOUBLE_CLASS
  | mxSINGLE_CLASS
  | mxINT8_CLASS
  | mxUINT8_CLASS
  | mxINT16_CLASS
  | mxUINT16_CLASS
  | mxINT32_CLASS
  | mxUINT32_CLASS
  | mxINT64_CLASS
  | mxUINT64_CLASS
  | mxFUNCTION_CLASS
  deriving DecidableEq, Repr

/-- The data buffer of an array (`mxGetData`, `mxGetLogicals`, `mxArrayToString`), in
the host's column-major order.  `raw` stands for the buffers the binding never reads
(integer classes, cells, structs). -/
inductive mxData (R S : Type)
  | doubles (vals : List R)
  | singles (vals : List S)
  | logicals (vals : List Bool)
  | chars (text : String)
  | raw
  deriving DecidableEq, Repr

/-- A host array: `dims` is what `mxGetDimensions` returns and its length is
`mxGetNumberOfDimensions`. -/
structure mxArray (R S : Type) where
  classID : mxClassID
  complex : Bool
  dims : List Nat
  data : mxData R S
  deriving DecidableEq, Repr

variable {R S : Type}

/-- The `mxIsDouble` test of `mex.h`. -/
def mxIsDouble (arr : mxArray R S) : Bool :=
  arr.classID = mxClassID.mxDOUBLE_CLASS

/-- The `mxIsSingle` test of `mex.h`. -/
def mxIsSingle (arr : mxArray R S) : Bool :=
  arr.classID = mxClassID.mxSINGLE_CLASS

/-- The `mxIsComplex` test of `mex.h`. -/
def mxIsComplex (arr : mxArray R S) : Bool :=
  arr.complex

/-- The `mxIsLogical` test of `mex.h`. -/
def mxIsLogical (arr : mxArray R S) : Bool :=
  arr.classID = mxClassID.mxLOGICAL_CLASS

/-- The `mxIsChar` test of `mex.h`. -/
def mxIsChar (arr : mxArray R S) : Bool :=
  arr.classID = mxClassID.mxCHAR_CLASS

/-- The `mxIsStruct` test of `mex.h`. -/
def mxIsStruct (arr : mxArray R S) : Bool :=
  arr.classID = mxClassID.mxSTRUCT_CLASS

/-- The `mxIsNumeric` test of `mex.h`: the floating and the integer classes. -/
def mxIsNumeric (arr : mxArray R S) : Bool :=
  match arr.classID with
  | mxClassID.mxDOUBLE_CLASS => true
  | mxClassID.mxSINGLE_CLASS => true
  | mxClassID.mxINT8_CLASS => true
  | mxClassID.mxUINT8_CLASS => true
  | mxClassID.mxINT16_CLASS => true
  | mxClassID.mxUINT16_CLASS => true
  | mxClassID.mxINT32_CLASS => true
  | mxClassID.mxUINT32_CLASS => true
  | mxClassID.mxINT64_CLASS => true
  | mxClassID.mxUINT64_CLASS => true
  | _ => false

/-- The element count `mxGetNumberOfElements`: the product of the dimensions. -/
def mxGetNumberOfElements (arr : mxArray R S) : Nat :=
  arr.dims.prod

/-- The rank `mxGetNumberOfDimensions`. -/
def mxGetNumberOfDimensions (arr : mxArray R S) : Nat :=
  arr.dims.length

/-- The conversion `mxArrayToString`: the text of a char array, and `NULL` (here
`none`) for every other array. -/
def mxArrayToString (arr : mxArray R S) : Option String :=
  match arr.data with
  | mxData.chars text => if mxIsChar arr then some text else none
  | _ => none

/-- The `double` buffer of an array as `(double *)mxGetData(arr)` reads it. -/
def doubleData (arr : mxArray R S) : List R :=
  match arr.data with
  | mxData.doubles vals => vals
  | _ => []

/-! ## Option schema -/

/-- Modelled from the spec: the option kinds of the engine's `OptionSpec`, whose
declaration is in the engine's headers; the source names only `OPT_MATRIX`. -/
inductive OptionType
  | OPT_STRING
  | OPT_NUMBER
  | OPT_MATRIX
  | OPT_IMAGE
  | OPT_OTHER
  deriving DecidableEq, Repr

/-- The two fields of the engine's `OptionSpec` that the binding reads. -/
structure OptionSpec where
  name : String
  type : OptionType
  deriving DecidableEq, Repr

/-- The call `std::replace(option.begin(), option.end(), old, new)` on a string. -/
def std_replace (option : String) (old new : Char) : String :=
  String.mk (option.data.map (fun ch => if ch = old then new else ch))

/-- Function `real_option_name` of `fabber_wrapper.cpp`: the loop returns the option
at the first schema entry of that name; after the loop every underscore is replaced. -/
def real_option_name (option : String) : List OptionSpec → String
  | [] => std_replace option '_' '-'
  | spec :: rest => if option = spec.name then option else real_option_name option rest

/-- Function `real_option_name` of `fabber.cpp`, over the list of option names:
`std::find` reaching the end triggers the replacement. -/
def real_option_name_names (option : String) (model_options : List String) : String :=
  if model_options.find? (fun known => known == option) = none then
    std_replace option '_' '-'
  else option

/-- Function `is_matrix_option`: the kind test at the first schema entry of that name. -/
def is_matrix_option (option : String) : List OptionSpec → Bool
  | [] => false
  | spec :: rest =>
    if option = spec.name then decide (spec.type = OptionType.OPT_MATRIX)
    else is_matrix_option option rest

/-! ## Output enumeration -/

/-- The parameter loop of `get_outputs`: for each declared parameter, in order, the
three guarded `push_back` calls. -/
def get_outputs_params (GetBool : String → Bool) : List String → List String → List String
  | [], outputs => outputs
  | name :: rest, outputs =>
    let outputs := if GetBool "save-mean" then outputs ++ ["mean_" ++ name] else outputs
    let outputs := if GetBool "save-std" then outputs ++ ["stdev_" ++ name] else outputs
    let outputs := if GetBool "save-zstat" then outputs ++ ["zstat_" ++ name] else outputs
    get_outputs_params GetBool rest outputs

/-- The loop of `get_outputs` over the model's extra outputs: one `push_back` each. -/
def get_outputs_extras : List String → List String → List String
  | [], outputs => outputs
  | name :: rest, outputs => get_outputs_extras rest (outputs ++ [name])

/-- The six guarded `push_back` calls for the outputs not linked to parameters, with
the option keys exactly as the source spells them. -/
def get_outputs_fixed (GetBool : String → Bool) (outputs : List String) : List String :=
  let outputs := if GetBool "save-model-fit" then outputs ++ ["modelfit"] else outputs
  let outputs := if GetBool "save-residuals" then outputs ++ ["residuals"] else outputs
  let outputs := if GetBool "save-free-energy" then outputs ++ ["freeEnergy"] else outputs
  let outputs := if GetBool "save-noise_mean" then outputs ++ ["noise_means"] else outputs
  let outputs := if GetBool "save-noise_std" then outputs ++ ["noise_stdevs"] else outputs
  let outputs := if GetBool "save-mvn" then outputs ++ ["finalMVN"] else outputs
  outputs

/-- The engine's `SetBool(key)`: the switch reads as set afterwards. -/
def SetBool (GetBool : String → Bool) (key : String) : String → Bool :=
  fun other => if other = key then true else GetBool other

/-- Function `get_outputs` of `fabber_wrapper.cpp`.  `params` are the names the model's
`GetParameters` declares and `extra_outputs` what its `GetOutputs` declares.  The
result is the output list and the switches as the call leaves them. -/
def get_outputs (GetBool : String → Bool) (params extra_outputs : List String) :
    List String × (String → Bool) :=
  let outputs := get_outputs_params GetBool params []
  let outputs :=
    if GetBool "save-model-extras" then get_outputs_extras extra_outputs outputs else outputs
  let outputs := get_outputs_fixed GetBool outputs
  if outputs.length = 0 then (outputs ++ ["modelfit"], SetBool GetBool "save-model-fit")
  else (outputs, GetBool)

/-- The names `get_outputs` derives from one parameter, as the claim lists them. -/
def param_outputs (GetBool : String → Bool) (name : String) : List String :=
  (if GetBool "save-mean" then ["mean_" ++ name] else []) ++
  (if GetBool "save-std" then ["stdev_" ++ name] else []) ++
  (if GetBool "save-zstat" then ["zstat_" ++ name] else [])

/-- The six fixed output names. -/
def fixed_names : List String :=
  ["modelfit", "residuals", "freeEnergy", "noise_means", "noise_stdevs", "finalMVN"]

/-- The switch keys of the six fixed outputs as `get_outputs` spells them, each with
the output name it guards, in source order. -/
def fixed_switches : List (String × String) :=
  [("save-model-fit", "modelfit"), ("save-residuals", "residuals"),
   ("save-free-energy", "freeEnergy"), ("save-noise_mean", "noise_means"),
   ("save-noise_std", "noise_stdevs"), ("save-mvn", "finalMVN")]

/-! ## Dimension checks -/

/-- The comparison loop of `dims_match`: `left` iterations remain and `i` is the loop
index; the first differing dimension ends the loop with `false`. -/
def dims_match_loop (arr_dims dims_4d : List Nat) : Nat → Nat → Bool
  | 0, _ => true
  | left + 1, i =>
    if dims_4d.getD i 0 ≠ arr_dims.getD i 0 then false
    else dims_match_loop arr_dims dims_4d left (i + 1)

/-- Function `dims_match` of `fabber_wrapper.cpp`: `ndims` is 4, lowered to the rank of
the array when that is smaller. -/
def dims_match (arr : mxArray R S) (dims_4d : List Nat) : Bool :=
  let arr_ndims := mxGetNumberOfDimensions arr
  let ndims := if arr_ndims < 4 then arr_ndims else 4
  dims_match_loop arr.dims dims_4d ndims 0

/-- Function `check_dims`: the error of identifier `Fabber:run:check_dims` when
`dims_match` fails. -/
def check_dims (arr : mxArray R S) (dims_4d : List Nat) : Except String Unit :=
  if !dims_match arr dims_4d then Except.error "Fabber:run:check_dims"
  else Except.ok ()

/-! ## Effects on the engine and the file system -/

/-- What the binding does to its collaborators: the setter calls on the engine object
and the text files it writes. -/
inductive Effect (R S : Type)
  | Set (key value : String)
  | SetDouble (key : String) (val : R)
  | SetSingle (key : String) (val : S)
  | SetVoxelDataArray (key : String) (data_size : Nat) (fdata : List S)
  | WriteFile (filename : String) (text : List Char)
  | SetExtent (nx ny nz : Int) (mask : List Int)
  deriving DecidableEq, Repr

/-- The engine object as the binding leaves it: the effects so far, oldest first. -/
abbrev FabberRunDataArray (R S : Type) := List (Effect R S)

/-- The identifier under which a step with no defined behaviour in C++ (a null
pointer turned into a `std::string`, a read past a buffer) is reported. -/
def undefined_behaviour : String := "undefined behaviour"

/-- Function `single_value`. -/
def single_value (arr : mxArray R S) : Bool :=
  mxGetNumberOfElements arr = 1

/-- Function `add_string`. -/
def add_string (fab : FabberRunDataArray R S) (key : String) (arr : mxArray R S) :
    Except String (FabberRunDataArray R S) :=
  match mxArrayToString arr with
  | some fvalue => Except.ok (fab ++ [Effect.Set key fvalue])
  | none => Except.error undefined_behaviour

/-- The `float` buffer of an array as `(float *)mxGetData(arr)` reads it. -/
def singleData (arr : mxArray R S) : List S :=
  match arr.data with
  | mxData.singles vals => vals
  | _ => []

/-- Function `add_numeric` of `fabber_wrapper.cpp`: the branch for the remaining
classes is commented out in the source, so nothing is done there. -/
def add_numeric (fab : FabberRunDataArray R S) (key : String) (arr : mxArray R S) :
    Except String (FabberRunDataArray R S) :=
  if mxIsDouble arr then
    match doubleData arr with
    | val :: _ => Except.ok (fab ++ [Effect.SetDouble key val])
    | [] => Except.error undefined_behaviour
  else if mxIsSingle arr then
    match singleData arr with
    | val :: _ => Except.ok (fab ++ [Effect.SetSingle key val])
    | [] => Except.error undefined_behaviour
  else Except.ok fab

/-! ## Matrix options as temporary text files -/

/-- A value of the C++ type `int`: 32 bits, two's complement. -/
structure CInt where
  val : Int
  lower : -(2 ^ 31) ≤ val
  upper : val < 2 ^ 31

/-- The conversion of an `mwSize` to `int` at a call (two's complement, 32 bits). -/
def int_of_mwSize (n : Nat) : Int :=
  if n % 2 ^ 32 < 2 ^ 31 then ((n % 2 ^ 32 : Nat) : Int)
  else ((n % 2 ^ 32 : Nat) : Int) - 2 ^ 32

/-- The conversion of an `mwSize` to `int`, as a value of the type `int`. -/
def cint_of_mwSize (n : Nat) : CInt :=
  ⟨int_of_mwSize n,
   by unfold int_of_mwSize; split <;> omega,
   by unfold int_of_mwSize; split <;> omega⟩

/-- The inner loop of `matrix_to_tempfile` for row `x`: `left` iterations remain, `y`
is the column index; each step reads `data[y*nx + x]` and writes it followed by a
tab.  The index is computed in `int`: an index that does not fit, like a read outside
the buffer, has no defined behaviour and yields `none`. -/
def matrix_row_loop (fmt : R → List Char) (data : List R) (nx x : Nat) :
    Nat → Nat → List Char → Option (List Char)
  | 0, _, out => some out
  | left + 1, y, out =>
    if 2 ^ 31 ≤ y * nx + x then none
    else
      match data.get? (y * nx + x) with
      | some val => matrix_row_loop fmt data nx x left (y + 1) (out ++ fmt val ++ ['\t'])
      | none => none

/-- The outer loop of `matrix_to_tempfile`: `left` iterations remain, `x` is the row
index; each step writes one row and then the line end. -/
def matrix_loop (fmt : R → List Char) (data : List R) (nx ny : Nat) :
    Nat → Nat → List Char → Option (List Char)
  | 0, _, out => some out
  | left + 1, x, out =>
    match matrix_row_loop fmt data nx x ny 0 out with
    | some out => matrix_loop fmt data nx ny left (x + 1) (out ++ ['\n'])
    | none => none

/-- The text `matrix_to_tempfile` writes to the file for the `int` bounds `nx` and `ny`
(a bound that is not positive gives no iteration).  `fmt` is the text the stream
writes for one `double`. -/
def matrix_text (fmt : R → List Char) (data : List R) (nx ny : CInt) : Option (List Char) :=
  matrix_loop fmt data nx.val.toNat ny.val.toNat nx.val.toNat 0 []

/-- Function `matrix_to_tempfile`.  `tempdir` is what `mkdtemp` returns (`none` for
`NULL`).  The result is the file name and the engine object with the file written. -/
def matrix_to_tempfile (fmt : R → List Char) (tempdir : Option String)
    (fab : FabberRunDataArray R S) (key : String) (data : List R) (nx ny : CInt) :
    Except String (String × FabberRunDataArray R S) :=
  match tempdir with
  | none => Except.error "Fabber:matrix_to_tempfile"
  | some dir =>
    let filename := dir ++ "/" ++ key ++ ".mat"
    match matrix_text fmt data nx ny with
    | some text => Except.ok (filename, fab ++ [Effect.WriteFile filename text])
    | none => Except.error undefined_behaviour

/-- Function `add_matrixfile`: the two dimensions, of type `mwSize`, are converted to
`int` at the call of `matrix_to_tempfile`. -/
def add_matrixfile (fmt : R → List Char) (tempdir : Option String)
    (fab : FabberRunDataArray R S) (key : String) (arr : mxArray R S) :
    Except String (FabberRunDataArray R S) :=
  if mxGetNumberOfDimensions arr ≠ 2 then Except.error "Fabber:add_matrixfile"
  else if mxIsDouble arr then
    match matrix_to_tempfile fmt tempdir fab key (doubleData arr)
        (cint_of_mwSize (arr.dims.getD 0 0)) (cint_of_mwSize (arr.dims.getD 1 0)) with
    | Except.ok (filename, fab) => Except.ok (fab ++ [Effect.Set key filename])
    | Except.error e => Except.error e
  else if mxIsSingle arr then Except.error "Fabber:add_matrixfile"
  else Except.error "Fabber:add_matrixfile"

/-! ## Voxel data -/

/-- The copy loop of `add_data`: `left` iterations remain, `i` is the index; each
step stores the `float` conversion of `data[i]`. -/
def copy_loop (d2f : R → S) (data : List R) : Nat → Nat → List S → Option (List S)
  | 0, _, fdata => some fdata
  | left + 1, i, fdata =>
    match data.get? i with
    | some val => copy_loop d2f data left (i + 1) (fdata ++ [d2f val])
    | none => none

/-- The series length `add_data` passes on: the fourth dimension, stored in an
`unsigned int`, when the rank is 4, and 1 otherwise. -/
def add_data_size (arr : mxArray R S) : Nat :=
  if mxGetNumberOfDimensions arr = 4 then arr.dims.getD 3 0 % 2 ^ 32 else 1

/-- Function `add_data` of `fabber_wrapper.cpp`. -/
def add_data (d2f : R → S) (fab : FabberRunDataArray R S) (key : String) (arr : mxArray R S)
    (dims_4d : List Nat) : Except String (FabberRunDataArray R S) :=
  match check_dims arr dims_4d with
  | Except.error e => Except.error e
  | Except.ok () =>
    if !mxIsDouble arr then Except.error "Fabber:dataNotDouble"
    else
      let len := mxGetNumberOfElements arr
      match copy_loop d2f (doubleData arr) len 0 [] with
      | some fdata => Except.ok (fab ++ [Effect.SetVoxelDataArray key (add_data_size arr) fdata])
      | none => Except.error undefined_behaviour

/-! ## The options record -/

/-- Function `get_model_options`.  `registry` is the engine's `FwdModel::NewFromName`
followed by `GetOptions`: the option list of a known model, `none` for a name the
engine does not know, which raises the engine's exception. -/
def get_model_options (registry : String → Option (List OptionSpec)) (model_name : String) :
    Except String (List OptionSpec) :=
  match registry model_name with
  | some options => Except.ok options
  | none => Except.error "Fabber:fabberError"

/-- The first loop of `set_rundata` in `fabber_wrapper.cpp`: every field named `model`
replaces `model_options` by the options of the model its value names. -/
def set_rundata_schema (registry : String → Option (List OptionSpec)) :
    List (String × Option (mxArray R S)) → List OptionSpec → Except String (List OptionSpec)
  | [], model_options => Except.ok model_options
  | (field_name, field) :: rest, model_options =>
    if field_name = "model" then
      match field.bind mxArrayToString with
      | some model =>
        match get_model_options registry model with
        | Except.ok options => set_rundata_schema registry rest options
        | Except.error e => Except.error e
      | none => Except.error undefined_behaviour
    else set_rundata_schema registry rest model_options

/-- The body of the second loop of `set_rundata` in `fabber_wrapper.cpp` for one field. -/
def set_rundata_field (fmt : R → List Char) (d2f : R → S) (tempdir : Option String)
    (model_options : List OptionSpec) (dims_4d : List Nat) (fab : FabberRunDataArray R S)
    (field_name : String) (field : Option (mxArray R S)) :
    Except String (FabberRunDataArray R S) :=
  let name := real_option_name field_name model_options
  if name = "loadmodels" then Except.ok fab
  else
    match field with
    | none => Except.error "Fabber:emptyField"
    | some field =>
      if mxIsChar field then add_string fab name field
      else if mxIsNumeric field then
        if single_value field then add_numeric fab name field
        else if is_matrix_option name model_options then add_matrixfile fmt tempdir fab name field
        else add_data d2f fab name field dims_4d
      else Except.error "Fabber:invalidOptionType"

/-- The second loop of `set_rundata`: the fields in order, the first error ending it. -/
def set_rundata_loop (fmt : R → List Char) (d2f : R → S) (tempdir : Option String)
    (model_options : List OptionSpec) (dims_4d : List Nat) :
    List (String × Option (mxArray R S)) → FabberRunDataArray R S →
      Except String (FabberRunDataArray R S)
  | [], fab => Except.ok fab
  | (field_name, field) :: rest, fab =>
    match set_rundata_field fmt d2f tempdir model_options dims_4d fab field_name field with
    | Except.ok fab => set_rundata_loop fmt d2f tempdir model_options dims_4d rest fab
    | Except.error e => Except.error e

/-- Function `set_rundata` of `fabber_wrapper.cpp` on the fields of the options record,
in field order. -/
def set_rundata (fmt : R → List Char) (d2f : R → S) (tempdir : Option String)
    (registry : String → Option (List OptionSpec)) (fab : FabberRunDataArray R S)
    (rd_str : List (String × Option (mxArray R S))) (dims_4d : List Nat) :
    Except String (FabberRunDataArray R S) :=
  match set_rundata_schema registry rd_str [] with
  | Except.ok model_options => set_rundata_loop fmt d2f tempdir model_options dims_4d rd_str fab
  | Except.error e => Except.error e

/-! ## The earlier binding, `fabber.cpp` -/

namespace fabber_cpp

/-- The loop of `dims_match` in `fabber.cpp`, which raises the error itself at the first
differing dimension. -/
def dims_match_loop (arr_dims dims_4d : List Nat) : Nat → Nat → Except String Unit
  | 0, _ => Except.ok ()
  | left + 1, i =>
    if dims_4d.getD i 0 ≠ arr_dims.getD i 0 then Except.error "Fabber:run:dims_match"
    else dims_match_loop arr_dims dims_4d left (i + 1)

/-- Function `dims_match` of `fabber.cpp`. -/
def dims_match (arr : mxArray R S) (dims_4d : List Nat) : Except String Unit :=
  let arr_ndims := mxGetNumberOfDimensions arr
  let ndims := if arr_ndims < 4 then arr_ndims else 4
  dims_match_loop arr.dims dims_4d ndims 0

/-- Function `add_numeric` of `fabber.cpp`: the remaining classes are refused. -/
def add_numeric (fab : FabberRunDataArray R S) (key : String) (arr : mxArray R S) :
    Except String (FabberRunDataArray R S) :=
  if mxIsDouble arr then
    match doubleData arr with
    | val :: _ => Except.ok (fab ++ [Effect.SetDouble key val])
    | [] => Except.error undefined_behaviour
  else if mxIsSingle arr then
    match singleData arr with
    | val :: _ => Except.ok (fab ++ [Effect.SetSingle key val])
    | [] => Except.error undefined_behaviour
  else Except.error "Fabber:intOptions"

/-- Function `add_data` of `fabber.cpp`. -/
def add_data (d2f : R → S) (fab : FabberRunDataArray R S) (key : String) (arr : mxArray R S)
    (dims_4d : List Nat) : Except String (FabberRunDataArray R S) :=
  match dims_match arr dims_4d with
  | Except.error e => Except.error e
  | Except.ok () =>
    if !mxIsDouble arr then Except.error "Fabber:dataNotDouble"
    else
      let len := mxGetNumberOfElements arr
      match copy_loop d2f (doubleData arr) len 0 [] with
      | some fdata => Except.ok (fab ++ [Effect.SetVoxelDataArray key (add_data_size arr) fdata])
      | none => Except.error undefined_behaviour

/-- Function `model_option_names` of `fabber.cpp`: the names of the model's options. -/
def model_option_names (registry : String → Option (List OptionSpec)) (model_name : String) :
    Except String (List String) :=
  match registry model_name with
  | some options => Except.ok (options.map (fun spec => spec.name))
  | none => Except.error "Fabber:fabberError"

/-- The first loop of `set_rundata` in `fabber.cpp`: every field named `model` replaces
`model_options` by `model_option_names("poly")`; the value of the field is not read. -/
def set_rundata_schema (registry : String → Option (List OptionSpec)) :
    List (String × Option (mxArray R S)) → List String → Except String (List String)
  | [], model_options => Except.ok model_options
  | (field_name, _) :: rest, model_options =>
    if field_name = "model" then
      match model_option_names registry "poly" with
      | Except.ok names => set_rundata_schema registry rest names
      | Except.error e => Except.error e
    else set_rundata_schema registry rest model_options

/-- The body of the second loop of `set_rundata` in `fabber.cpp` for one field. -/
def set_rundata_field (d2f : R → S) (model_options : List String) (dims_4d : List Nat)
    (fab : FabberRunDataArray R S) (field_name : String) (field : Option (mxArray R S)) :
    Except String (FabberRunDataArray R S) :=
  let name := real_option_name_names field_name model_options
  match field with
  | none => Except.error "Fabber:emptyField"
  | some field =>
    if mxIsChar field then add_string fab name field
    else if mxIsNumeric field then
      if single_value field then add_numeric fab name field
      else add_data d2f fab name field dims_4d
    else Except.error "Fabber:invalidOptionType"

/-- The second loop of `set_rundata` in `fabber.cpp`. -/
def set_rundata_loop (d2f : R → S) (model_options : List String) (dims_4d : List Nat) :
    List (String × Option (mxArray R S)) → FabberRunDataArray R S →
      Except String (FabberRunDataArray R S)
  | [], fab => Except.ok fab
  | (field_name, field) :: rest, fab =>
    match set_rundata_field d2f model_options dims_4d fab field_name field with
    | Except.ok fab => set_rundata_loop d2f model_options dims_4d rest fab
    | Except.error e => Except.error e

/-- Function `set_rundata` of `fabber.cpp`. -/
def set_rundata (d2f : R → S) (registry : String → Option (List OptionSpec))
    (fab : FabberRunDataArray R S) (rd_str : List (String × Option (mxArray R S)))
    (dims_4d : List Nat) : Except String (FabberRunDataArray R S) :=
  match set_rundata_schema registry rd_str [] with
  | Except.ok model_options => set_rundata_loop d2f model_options dims_4d rd_str fab
  | Except.error e => Except.error e

end fabber_cpp

/-! ## Writing and reading back numbers -/

/-- The digits of a fraction without its trailing zeros. -/
def strip_zeros (digits : List Char) : List Char :=
  (digits.reverse.dropWhile (fun ch => ch = '0')).reverse

/-- The exponent part of the scientific form: sign and at least two digits. -/
def exponent_text (e : Nat) : List Char :=
  ['e', '+'] ++ (if e < 10 then ['0'] else []) ++ Nat.toDigits 10 e

/-- The text `matrix_file << value` writes when `value` is the `double` holding the
integer `n` (exact for `n < 2^53`).  `matrix_to_tempfile` never changes the stream's
format, so this is the general format with precision 6 (that of `printf("%g")`): an
integer below 10^6 is written in full, a larger one in scientific form with six
significant digits, rounded to nearest with ties to even, trailing zeros dropped. -/
def ostream_put_double (n : Nat) : List Char :=
  if n < 10 ^ 6 then Nat.toDigits 10 n
  else
    let len := (Nat.toDigits 10 n).length
    let scale := 10 ^ (len - 6)
    let q := n / scale
    let r := n % scale
    let q := if scale < 2 * r ∨ (2 * r = scale ∧ q % 2 = 1) then q + 1 else q
    let e := if q = 10 ^ 6 then len else len - 1
    let q := if q = 10 ^ 6 then 10 ^ 5 else q
    match Nat.toDigits 10 q with
    | [] => []
    | lead :: frac =>
      let frac := strip_zeros frac
      (lead :: (if frac = [] then [] else '.' :: frac)) ++ exponent_text e

/-- The pieces of a text each of which is ended by `sep`; `piece` collects the piece
being read, and an unterminated last piece is kept when it is not empty. -/
def split_terminated (sep : Char) : List Char → List Char → List (List Char)
  | [], piece => if piece = [] then [] else [piece]
  | ch :: rest, piece =>
    if ch = sep then piece :: split_terminated sep rest []
    else split_terminated sep rest (piece ++ [ch])

/-- Reading every cell of a line with the value reader `rd`; one unreadable cell makes
the line unreadable. -/
def read_cells (rd : List Char → Option R) : List (List Char) → Option (List R)
  | [] => some []
  | cell :: rest =>
    match rd cell, read_cells rd rest with
    | some val, some vals => some (val :: vals)
    | _, _ => none

/-- Reading every line as a row of tab-terminated cells. -/
def read_rows (rd : List Char → Option R) : List (List Char) → Option (List (List R))
  | [] => some []
  | line :: rest =>
    match read_cells rd (split_terminated '\t' line []), read_rows rd rest with
    | some row, some rows => some (row :: rows)
    | _, _ => none

/-- Modelled from the spec: re-reading the text file as a matrix, which is done by the
engine and is not code of this repository.  Lines are rows, the tab-terminated cells
of a line are its values in column order, and `rd` reads one value. -/
def read_matrix (rd : List Char → Option R) (text : List Char) : Option (List (List R)) :=
  read_rows rd (split_terminated '\n' text [])

/-- A value reader for unsigned decimal integers. -/
def read_decimal (cell : List Char) : Option Nat :=
  if cell ≠ [] ∧ cell.all Char.isDigit = true then
    some (cell.foldl (fun acc ch => 10 * acc + (ch.toNat - 48)) 0)
  else none

/-! ## Input validation -/

/-- Function `validate_input` of `fabber_wrapper.cpp`; `nrhs` is the length of `prhs`.
On success the result is the dimension list of the main data. -/
def validate_input (nlhs : Nat) (prhs : List (mxArray R S)) : Except String (List Nat) :=
  if prhs.length ≠ 3 then Except.error "fabber:wrongNumberInputs"
  else if nlhs > 1 then Except.error "fabber:wrongNumberOutputs"
  else
    match prhs with
    | [data, mask, rundata] =>
      if !mxIsDouble data || mxIsComplex data then Except.error "fabber:dataNotRealDouble"
      else if mxGetNumberOfDimensions data ≠ 4 then Except.error "Fabber:dataNot4D"
      else if !mxIsLogical mask then Except.error "Fabber:maskNotLogical"
      else if mxGetNumberOfDimensions mask ≠ 3 then Except.error "Fabber:maskNot3D"
      else
        match check_dims mask data.dims with
        | Except.error e => Except.error e
        | Except.ok () =>
          if !mxIsStruct rundata then Except.error "Fabber:rundataNotStruct"
          else if mxGetNumberOfElements rundata ≠ 1 then
            Except.error "Fabber:rundataMultiValued"
          else Except.ok data.dims
    | _ => Except.error "fabber:wrongNumberInputs"

/-! ## Extent and mask -/

/-- The product of two `int` values; a product outside the range of `int` has no
defined behaviour and yields `none`. -/
def int_mul (a b : Int) : Option Int :=
  if -(2 ^ 31) ≤ a * b ∧ a * b < 2 ^ 31 then some (a * b) else none

/-- The buffer of a logical array as `mxGetLogicals` returns it. -/
def logicalData (arr : mxArray R S) : List Bool :=
  match arr.data with
  | mxData.logicals vals => vals
  | _ => []

/-- The identifier under which a failed `assert` is reported. -/
def assertion_failed : String := "assertion failed"

/-- The copy loop of `set_extent`: `left` iterations remain, `i` is the index; each
step stores the element of the mask converted to `int`. -/
def mask_loop (maskdata_orig : List Bool) : Nat → Nat → List Int → Option (List Int)
  | 0, _, maskdata => some maskdata
  | left + 1, i, maskdata =>
    match maskdata_orig.get? i with
    | some flag => mask_loop maskdata_orig left (i + 1) (maskdata ++ [if flag then 1 else 0])
    | none => none

/-- Function `set_extent`.  The three dimensions are stored in `int` variables and
`len` is their `int` product; a negative `len` makes the constructor of the vector
throw, which `mexFunction` reports as `Fabber:stlException`. -/
def set_extent (fab : FabberRunDataArray R S) (dims_4d : List Nat) (mask : mxArray R S) :
    Except String (FabberRunDataArray R S) :=
  let nx := int_of_mwSize (dims_4d.getD 0 0)
  let ny := int_of_mwSize (dims_4d.getD 1 0)
  let nz := int_of_mwSize (dims_4d.getD 2 0)
  match (int_mul nx ny).bind (fun nxy => int_mul nxy nz) with
  | none => Except.error undefined_behaviour
  | some len =>
    if len < 0 then Except.error "Fabber:stlException"
    else if len.toNat ≠ mxGetNumberOfElements mask then Except.error assertion_failed
    else
      match mask_loop (logicalData mask) len.toNat 0 [] with
      | some maskdata => Except.ok (fab ++ [Effect.SetExtent nx ny nz maskdata])
      | none => Except.error undefined_behaviour

/-! ## Result assembly -/

/-- The call `mxCreateNumericArray(ndim, dims, classid, mxREAL)`: an array of the
requested dimensions whose buffer is still to be filled. -/
def mxCreateNumericArray (ndim : Nat) (dims : List Nat) (classid : mxClassID) : mxArray R S :=
  ⟨classid, false, dims.take ndim, mxData.raw⟩

/-- The call `mxCreateString(str)`: a row of characters. -/
def mxCreateString (str : String) : mxArray R S :=
  ⟨mxClassID.mxCHAR_CLASS, false, [1, str.length], mxData.chars str⟩

/-- What `save_output` does to the result record: `fieldnames` are the names it gives
to `mxCreateStructArray`, and `fields` are its `mxSetField` calls, oldest first, each
with the field name and the value assigned. -/
structure ResultRecord (R S : Type) where
  fieldnames : List String
  fields : List (String × mxArray R S)

/-- The first loop of `save_output`: one `push_back` of the name of each output. -/
def item_names_loop : List String → List String → List String
  | [], item_names => item_names
  | name :: rest, item_names => item_names_loop rest (item_names ++ [name])

/-- The loop `for (int d=0; d<3; d++) dims.push_back(dims_4d[d])`. -/
def push_dims (dims_4d : List Nat) : Nat → Nat → List Nat → List Nat
  | 0, _, dims => dims
  | left + 1, d, dims => push_dims dims_4d left (d + 1) (dims ++ [dims_4d.getD d 0])

/-- The body of the second loop of `save_output` up to `mxSetField`: the array created
for one output and filled by the engine.  `GetVoxelDataSize` and `GetVoxelDataArray`
are the engine's answers for the output name. -/
def save_output_array (GetVoxelDataSize : String → Int) (GetVoxelDataArray : String → List S)
    (name : String) (dims_4d : List Nat) : mxArray R S :=
  let data_size := GetVoxelDataSize name
  let dims := push_dims dims_4d 3 0 []
  let arr : mxArray R S :=
    if data_size > 1 then
      mxCreateNumericArray 4 (dims ++ [data_size.toNat]) mxClassID.mxSINGLE_CLASS
    else mxCreateNumericArray 3 dims mxClassID.mxSINGLE_CLASS
  { arr with data := mxData.singles (GetVoxelDataArray name) }

/-- The second loop of `save_output`: for each output, in order, the array and the
`mxSetField` call under the output name. -/
def save_output_loop (GetVoxelDataSize : String → Int) (GetVoxelDataArray : String → List S)
    (dims_4d : List Nat) :
    List String → List (String × mxArray R S) → List (String × mxArray R S)
  | [], fields => fields
  | name :: rest, fields =>
    save_output_loop GetVoxelDataSize GetVoxelDataArray dims_4d rest
      (fields ++ [(name, save_output_array GetVoxelDataSize GetVoxelDataArray name dims_4d)])

/-- Function `save_output` of `fabber_wrapper.cpp`. -/
def save_output (GetVoxelDataSize : String → Int) (GetVoxelDataArray : String → List S)
    (output_items : List String) (dims_4d : List Nat) (log : String) : ResultRecord R S :=
  let item_names := item_names_loop output_items [] ++ ["log"]
  let fields := save_output_loop GetVoxelDataSize GetVoxelDataArray dims_4d output_items []
  ⟨item_names, fields ++ [("log", mxCreateString log)]⟩

/-! ## Model libraries -/

/-- The call `loadmodels.find(delimiter)` for a delimiter of one character: the index
of its first occurrence, `none` for `npos`. -/
def string_find (delimiter : Char) : List Char → Option Nat
  | [] => none
  | ch :: rest =>
    if ch = delimiter then some 0 else (string_find delimiter rest).map (fun pos => pos + 1)

/-- The first loop of `load_models`: the text of every field named `loadmodels`
replaces the string, which starts empty. -/
def load_models_field : List (String × Option (mxArray R S)) → String → Except String String
  | [], loadmodels => Except.ok loadmodels
  | (field_name, field) :: rest, loadmodels =>
    if field_name = "loadmodels" then
      match field.bind mxArrayToString with
      | some text => load_models_field rest text
      | none => Except.error undefined_behaviour
    else load_models_field rest loadmodels

/-- The `while` loop of `load_models` with at most `fuel` iterations.  `load` tells
whether `FwdModel::LoadFromDynamicLibrary` succeeds on a path.  The state is the rest
of the string, the paths attempted so far and the paths warned about so far; `none`
means that the iterations ran out before the loop ended. -/
def load_models_loop (load : String → Bool) :
    Nat → List Char → List String × List String → Option (List String × List String)
  | 0, loadmodels, log =>
    match string_find ';' loadmodels with
    | none => some log
    | some _ => none
  | fuel + 1, loadmodels, (attempts, warnings) =>
    match string_find ';' loadmodels with
    | none => some (attempts, warnings)
    | some pos =>
      let modellib := String.mk (loadmodels.take pos)
      let warnings := if load modellib then warnings else warnings ++ [modellib]
      load_models_loop load fuel (loadmodels.drop (pos + 1)) (attempts ++ [modellib], warnings)

/-- The identifier under which a loop that ran out of iterations is reported. -/
def out_of_fuel : String := "out of fuel"

/-- Function `load_models`: the paths attempted, in order, and the paths for which the
warning was printed.  The loop is given as many iterations as the string has
characters. -/
def load_models (load : String → Bool) (rundata_struc : List (String × Option (mxArray R S))) :
    Except String (List String × List String) :=
  match load_models_field rundata_struc "" with
  | Except.error e => Except.error e
  | Except.ok loadmodels =>
    match load_models_loop load loadmodels.data.length loadmodels.data ([], []) with
    | some log => Except.ok log
    | none => Except.error out_of_fuel

/-! ## The earlier binding, `fabber.cpp`, continued -/

namespace fabber_cpp

/-- Function `validate_input` of `fabber.cpp`, which checks the mask with the raising
`dims_match`. -/
def validate_input (nlhs : Nat) (prhs : List (mxArray R S)) : Except String (List Nat) :=
  if prhs.length ≠ 3 then Except.error "fabber:wrongNumberInputs"
  else if nlhs > 1 then Except.error "fabber:wrongNumberOutputs"
  else
    match prhs with
    | [data, mask, rundata] =>
      if !mxIsDouble data || mxIsComplex data then Except.error "fabber:dataNotRealDouble"
      else if mxGetNumberOfDimensions data ≠ 4 then Except.error "Fabber:dataNot4D"
      else if !mxIsLogical mask then Except.error "Fabber:maskNotLogical"
      else if mxGetNumberOfDimensions mask ≠ 3 then Except.error "Fabber:maskNot3D"
      else
        match dims_match mask data.dims with
        | Except.error e => Except.error e
        | Except.ok () =>
          if !mxIsStruct rundata then Except.error "Fabber:rundataNotStruct"
          else if mxGetNumberOfElements rundata ≠ 1 then
            Except.error "Fabber:rundataMultiValued"
          else Except.ok data.dims
    | _ => Except.error "fabber:wrongNumberInputs"

/-- Function `save_output` of `fabber.cpp`: as in `fabber_wrapper.cpp`, without the
log field. -/
def save_output (GetVoxelDataSize : String → Int) (GetVoxelDataArray : String → List S)
    (output_items : List String) (dims_4d : List Nat) : ResultRecord R S :=
  let item_names := item_names_loop output_items []
  let fields := save_output_loop GetVoxelDataSize GetVoxelDataArray dims_4d output_items []
  ⟨item_names, fields⟩

end fabber_cpp

/-! ## Sample inputs -/

/-- A 2 by 2 `double` matrix, used as the value of an option field. -/
def sample_matrix : mxArray Nat Nat :=
  ⟨mxClassID.mxDOUBLE_CLASS, false, [2, 2], mxData.doubles [1, 2, 3, 4]⟩

/-- A schema that declares the name `m` twice, first as a string, then as a matrix. -/
def twice_declared : List OptionSpec :=
  [⟨"m", OptionType.OPT_STRING⟩, ⟨"m", OptionType.OPT_MATRIX⟩]

/-- An engine that knows two models: `poly` with a numeric option and `linear` with a
matrix option. -/
def two_models (model_name : String) : Option (List OptionSpec) :=
  if model_name = "poly" then some [⟨"degree", OptionType.OPT_NUMBER⟩]
  else if model_name = "linear" then some [⟨"basis", OptionType.OPT_MATRIX⟩]
  else none

/-- An options record whose only field selects the model `linear`. -/
def linear_record : List (String × Option (mxArray Nat Nat)) :=
  [("model", some ⟨mxClassID.mxCHAR_CLASS, false, [1, 6], mxData.chars "linear"⟩)]

/-- A `double` array of rank 5 whose first four dimensions are 2, 1, 1, 2. -/
def rank_five : mxArray Nat Nat :=
  ⟨mxClassID.mxDOUBLE_CLASS, false, [2, 1, 1, 2, 2], mxData.doubles [1, 2, 3, 4, 5, 6, 7, 8]⟩

/-- Switches with save-mean and save-noise-mean set and no other. -/
def mean_and_noise_mean (key : String) : Bool :=
  key = "save-mean" || key = "save-noise-mean"

/-- A scalar of class `int32`. -/
def int32_scalar : mxArray Nat Nat :=
  ⟨mxClassID.mxINT32_CLASS, false, [1, 1], mxData.raw⟩

/-- Main data of dimensions 2, 2, 1, 2. -/
def small_data : mxArray Nat Nat :=
  ⟨mxClassID.mxDOUBLE_CLASS, false, [2, 2, 1, 2], mxData.doubles [1, 2, 3, 4, 5, 6, 7, 8]⟩

/-- A mask of dimensions 2, 2, 1. -/
def small_mask : mxArray Nat Nat :=
  ⟨mxClassID.mxLOGICAL_CLASS, false, [2, 2, 1], mxData.logicals [true, false, true, true]⟩

/-- An options record as `validate_input` sees it: a struct with one element. -/
def one_struct : mxArray Nat Nat :=
  ⟨mxClassID.mxSTRUCT_CLASS, false, [1, 1], mxData.raw⟩

/-- Empty main data of dimensions 65536, 32768, 2, 0. -/
def wide_data : mxArray Nat Nat :=
  ⟨mxClassID.mxDOUBLE_CLASS, false, [65536, 32768, 2, 0], mxData.doubles []⟩

/-- A mask of dimensions 65536, 32768, 2, that is of 2^32 elements, all true. -/
def wide_mask : mxArray Nat Nat :=
  ⟨mxClassID.mxLOGICAL_CLASS, false, [65536, 32768, 2],
    mxData.logicals (List.replicate 4294967296 true)⟩

/-- An options record whose loadmodels field lists the two libraries `a` and `b`. -/
def two_libraries : List (String × Option (mxArray Nat Nat)) :=
  [("loadmodels", some ⟨mxClassID.mxCHAR_CLASS, false, [1, 3], mxData.chars "a;b"⟩)]

/-- A schema that declares the option `basis` as a matrix. -/
def basis_schema : List OptionSpec :=
  [⟨"basis", OptionType.OPT_MATRIX⟩]

/-- The `double` matrix of one row with the two elements `val` and 1. -/
def one_by_two (val : Nat) : mxArray Nat Nat :=
  ⟨mxClassID.mxDOUBLE_CLASS, false, [1, 2], mxData.doubles [val, 1]⟩

/-- The 2 by 3 `double` matrix with columns (1, 2), (3, 4), (5, 6). -/
def two_by_three : mxArray Nat Nat :=
  ⟨mxClassID.mxDOUBLE_CLASS, false, [2, 3], mxData.doubles [1, 2, 3, 4, 5, 6]⟩

/-! ## Lemmas on the output enumeration -/

theorem get_outputs_params_eq (GetBool : String → Bool) (params outputs : List String) :
    get_outputs_params GetBool params outputs
      = outputs ++ params.flatMap (param_outputs GetBool) := by
  induction params generalizing outputs with
  | nil => simp [get_outputs_params]
  | cons name rest ih =>
    simp only [get_outputs_params, ih, List.flatMap_cons, param_outputs]
    cases GetBool "save-mean" <;> cases GetBool "save-std" <;> cases GetBool "save-zstat" <;> simp

theorem get_outputs_extras_eq (extra_outputs outputs : List String) :
    get_outputs_extras extra_outputs outputs = outputs ++ extra_outputs := by
  induction extra_outputs generalizing outputs with
  | nil => simp [get_outputs_extras]
  | cons name rest ih => simp [get_outputs_extras, ih]

theorem get_outputs_fixed_eq (GetBool : String → Bool) (outputs : List String) :
    ∃ rest, get_outputs_fixed GetBool outputs = outputs ++ rest ∧ ∀ x ∈ rest, x ∈ fixed_names := by
  refine ⟨(if GetBool "save-model-fit" then ["modelfit"] else []) ++
    (if GetBool "save-residuals" then ["residuals"] else []) ++
    (if GetBool "save-free-energy" then ["freeEnergy"] else []) ++
    (if GetBool "save-noise_mean" then ["noise_means"] else []) ++
    (if GetBool "save-noise_std" then ["noise_stdevs"] else []) ++
    (if GetBool "save-mvn" then ["finalMVN"] else []), ?_, ?_⟩
  · simp only [get_outputs_fixed]
    cases GetBool "save-model-fit" <;> cases GetBool "save-residuals" <;>
      cases GetBool "save-free-energy" <;> cases GetBool "save-noise_mean" <;>
      cases GetBool "save-noise_std" <;> cases GetBool "save-mvn" <;> simp
  · intro x hx
    simp only [List.mem_append] at hx
    simp only [fixed_names, List.mem_cons]
    rcases hx with ((((h | h) | h) | h) | h) | h <;> split at h <;> simp_all

/-! ## Claims on the output enumeration -/

/-- C1: the list `get_outputs` returns starts with the parameter-derived names (per
parameter, in declared order, `mean_`, `stdev_`, `zstat_` as switched), continues with
the model's extra outputs exactly when save-model-extras is set, and every element
after these two blocks is one of the six fixed names. -/
theorem get_outputs_blocks (GetBool : String → Bool) (params extra_outputs : List String) :
    ∃ rest, (get_outputs GetBool params extra_outputs).1
        = params.flatMap (param_outputs GetBool)
          ++ (if GetBool "save-model-extras" then extra_outputs else [])
          ++ rest
      ∧ ∀ x ∈ rest, x ∈ fixed_names := by
  obtain ⟨rest, hrest, hmem⟩ := get_outputs_fixed_eq GetBool
    (if GetBool "save-model-extras" then
      get_outputs_extras extra_outputs (get_outputs_params GetBool params [])
     else get_outputs_params GetBool params [])
  have hblocks : (if GetBool "save-model-extras" then
        get_outputs_extras extra_outputs (get_outputs_params GetBool params [])
      else get_outputs_params GetBool params [])
      = params.flatMap (param_outputs GetBool)
          ++ (if GetBool "save-model-extras" then extra_outputs else []) := by
    cases GetBool "save-model-extras" <;>
      simp [get_outputs_params_eq, get_outputs_extras_eq]
  by_cases hempty : (get_outputs_fixed GetBool (if GetBool "save-model-extras" then
        get_outputs_extras extra_outputs (get_outputs_params GetBool params [])
      else get_outputs_params GetBool params [])).length = 0
  · refine ⟨rest ++ ["modelfit"], ?_, ?_⟩
    · simp only [get_outputs, hempty, if_true]
      rw [hrest, hblocks]
      simp [List.append_assoc]
    · intro x hx
      rcases List.mem_append.mp hx with h | h
      · exact hmem x h
      · simp [fixed_names] at h ⊢
        simp [h]
  · refine ⟨rest, ?_, hmem⟩
    simp only [get_outputs, hempty, if_false]
    rw [hrest, hblocks]

/-! ## Name canonicalisation -/

theorem real_option_name_of_mem (s : String) (opts : List OptionSpec)
    (h : ∃ spec ∈ opts, spec.name = s) : real_option_name s opts = s := by
  induction opts with
  | nil => simp at h
  | cons spec rest ih =>
    simp only [real_option_name]
    split
    · rfl
    · rename_i hne
      apply ih
      obtain ⟨sp, hmem, hname⟩ := h
      rcases List.mem_cons.mp hmem with heq | hin
      · exact absurd (heq ▸ hname).symm hne
      · exact ⟨sp, hin, hname⟩

theorem real_option_name_of_not_mem (s : String) (opts : List OptionSpec)
    (h : ¬ ∃ spec ∈ opts, spec.name = s) :
    real_option_name s opts = std_replace s '_' '-' := by
  induction opts with
  | nil => rfl
  | cons spec rest ih =>
    simp only [real_option_name]
    split
    · rename_i heq
      exact absurd ⟨spec, List.mem_cons_self _ _, heq.symm⟩ h
    · apply ih
      rintro ⟨sp, hin, hname⟩
      exact h ⟨sp, List.mem_cons_of_mem _ hin, hname⟩

theorem real_option_name_names_eq (s : String) (opts : List OptionSpec) :
    real_option_name_names s (opts.map (fun spec => spec.name)) = real_option_name s opts := by
  by_cases h : ∃ spec ∈ opts, spec.name = s
  · rw [real_option_name_of_mem _ _ h]
    obtain ⟨spec, hin, hname⟩ := h
    have : ¬ ∀ x ∈ opts, ¬ x.name = s := fun hall => hall spec hin hname
    simp [real_option_name_names, List.find?_eq_none, this]
  · rw [real_option_name_of_not_mem _ _ h]
    have hall : ∀ x ∈ opts, ¬ x.name = s := fun x hin hname => h ⟨x, hin, hname⟩
    simp only [real_option_name_names, List.find?_eq_none, List.mem_map, forall_exists_index,
      and_imp, forall_apply_eq_imp_iff₂, beq_iff_eq]
    rw [if_pos hall]

theorem real_option_name_loadmodels (opts : List OptionSpec) :
    real_option_name "loadmodels" opts = "loadmodels" := by
  by_cases h : ∃ spec ∈ opts, spec.name = "loadmodels"
  · exact real_option_name_of_mem _ _ h
  · rw [real_option_name_of_not_mem _ _ h]
    decide

/-- C2: `real_option_name s opts` is `s` itself when `s` is the name of an entry of the
schema, and otherwise is `s` with the same length, every underscore replaced by a
hyphen and every other character kept. -/
theorem real_option_name_spec (s : String) (opts : List OptionSpec) :
    ((∃ spec ∈ opts, spec.name = s) → real_option_name s opts = s) ∧
    ((¬ ∃ spec ∈ opts, spec.name = s) →
      (real_option_name s opts).length = s.length ∧
      ∀ i : Nat, (real_option_name s opts).data[i]?
        = (s.data[i]?).map (fun ch => if ch = '_' then '-' else ch)) := by
  refine ⟨real_option_name_of_mem s opts, fun h => ?_⟩
  rw [real_option_name_of_not_mem s opts h]
  refine ⟨?_, fun i => ?_⟩
  · unfold std_replace
    exact List.length_map _ _
  · simp only [std_replace, List.getElem?_map]

/-- Witness of C2: a declared option with an underscore is kept, an undeclared field
name has its underscore replaced. -/
theorem real_option_name_spec_witness :
    real_option_name "my_opt" [⟨"my_opt", OptionType.OPT_NUMBER⟩] = "my_opt" ∧
    ((real_option_name "save_mean" [⟨"my_opt", OptionType.OPT_NUMBER⟩]).length
        = "save_mean".length ∧
      ∀ i : Nat, (real_option_name "save_mean" [⟨"my_opt", OptionType.OPT_NUMBER⟩]).data[i]?
        = ("save_mean".data[i]?).map (fun ch => if ch = '_' then '-' else ch)) :=
  ⟨(real_option_name_spec "my_opt" [⟨"my_opt", OptionType.OPT_NUMBER⟩]).1
      ⟨⟨"my_opt", OptionType.OPT_NUMBER⟩, by simp, rfl⟩,
   (real_option_name_spec "save_mean" [⟨"my_opt", OptionType.OPT_NUMBER⟩]).2 (by decide)⟩

/-! ## Field classification -/

theorem is_matrix_option_eq_find (name : String) (opts : List OptionSpec) :
    is_matrix_option name opts = true ↔
      ∃ spec, opts.find? (fun spec => decide (spec.name = name)) = some spec
        ∧ spec.type = OptionType.OPT_MATRIX := by
  induction opts with
  | nil => simp [is_matrix_option]
  | cons spec rest ih =>
    by_cases heq : name = spec.name
    · have hdec : decide (spec.name = name) = true := by simp [heq]
      simp [is_matrix_option, heq, List.find?]
    · have hdec : decide (spec.name = name) = false := by
        simp only [decide_eq_false_iff_not]
        exact fun h => heq h.symm
      simp only [is_matrix_option, heq, if_false, List.find?, hdec]
      exact ih

theorem find_matrix_iff_of_nodup (name : String) (opts : List OptionSpec)
    (hnodup : (opts.map (fun spec => spec.name)).Nodup) :
    (∃ spec, opts.find? (fun spec => decide (spec.name = name)) = some spec
        ∧ spec.type = OptionType.OPT_MATRIX) ↔
      ∃ spec ∈ opts, spec.name = name ∧ spec.type = OptionType.OPT_MATRIX := by
  constructor
  · rintro ⟨spec, hfind, htype⟩
    have hname : spec.name = name := by
      have := List.find?_some hfind
      simpa using this
    exact ⟨spec, List.mem_of_find?_eq_some hfind, hname, htype⟩
  · rintro ⟨spec, hmem, hname, htype⟩
    cases hfind : opts.find? (fun spec => decide (spec.name = name)) with
    | none =>
      have := List.find?_eq_none.mp hfind spec hmem
      simp [hname] at this
    | some found =>
      have hfname : found.name = name := by
        have := List.find?_some hfind
        simpa using this
      have hfmem : found ∈ opts := List.mem_of_find?_eq_some hfind
      have heq : found = spec :=
        List.inj_on_of_nodup_map hnodup hfmem hmem (hfname.trans hname.symm)
      exact ⟨found, rfl, heq ▸ htype⟩

theorem mxIsChar_of_numeric (field : mxArray R S) (h : mxIsNumeric field = true) :
    mxIsChar field = false := by
  unfold mxIsNumeric at h
  unfold mxIsChar
  cases hc : field.classID <;> simp_all

/-- C3, as amended: for a field with a value whose canonical name is not loadmodels,
`set_rundata` takes exactly one action.  A textual value goes to `add_string`; a
numeric value with one element goes to `add_numeric`; a numeric value with any other
number of elements goes to `add_matrixfile` if and only if the first schema entry that
carries the canonical name is of kind MATRIX, and to `add_data` otherwise; any other
value raises `Fabber:invalidOptionType`.  A field named loadmodels is skipped and the
engine object is left as it was. -/
theorem set_rundata_field_dispatch (fmt : R → List Char) (d2f : R → S)
    (tempdir : Option String) (opts : List OptionSpec) (dims_4d : List Nat)
    (fab : FabberRunDataArray R S) (field_name : String) (field : mxArray R S) :
    (field_name = "loadmodels" → ∀ value,
      set_rundata_field fmt d2f tempdir opts dims_4d fab field_name value = Except.ok fab) ∧
    (real_option_name field_name opts ≠ "loadmodels" →
      (mxIsChar field = true →
        set_rundata_field fmt d2f tempdir opts dims_4d fab field_name (some field)
          = add_string fab (real_option_name field_name opts) field) ∧
      (mxIsNumeric field = true → mxGetNumberOfElements field = 1 →
        set_rundata_field fmt d2f tempdir opts dims_4d fab field_name (some field)
          = add_numeric fab (real_option_name field_name opts) field) ∧
      (mxIsNumeric field = true → mxGetNumberOfElements field ≠ 1 →
        (∃ spec, opts.find? (fun spec => decide (spec.name = real_option_name field_name opts))
            = some spec ∧ spec.type = OptionType.OPT_MATRIX) →
        set_rundata_field fmt d2f tempdir opts dims_4d fab field_name (some field)
          = add_matrixfile fmt tempdir fab (real_option_name field_name opts) field) ∧
      (mxIsNumeric field = true → mxGetNumberOfElements field ≠ 1 →
        (¬ ∃ spec, opts.find? (fun spec => decide (spec.name = real_option_name field_name opts))
            = some spec ∧ spec.type = OptionType.OPT_MATRIX) →
        set_rundata_field fmt d2f tempdir opts dims_4d fab field_name (some field)
          = add_data d2f fab (real_option_name field_name opts) field dims_4d) ∧
      (mxIsChar field = false → mxIsNumeric field = false →
        set_rundata_field fmt d2f tempdir opts dims_4d fab field_name (some field)
          = Except.error "Fabber:invalidOptionType")) := by
  refine ⟨fun hname value => ?_, fun hne => ⟨?_, ?_, ?_, ?_, ?_⟩⟩
  · subst hname
    simp [set_rundata_field, real_option_name_loadmodels]
  · intro hchar
    simp [set_rundata_field, hne, hchar]
  · intro hnum hone
    simp [set_rundata_field, hne, mxIsChar_of_numeric field hnum, hnum, single_value, hone]
  · intro hnum hmany hmat
    have := (is_matrix_option_eq_find _ opts).mpr hmat
    simp [set_rundata_field, hne, mxIsChar_of_numeric field hnum, hnum, single_value, hmany, this]
  · intro hnum hmany hmat
    have : is_matrix_option (real_option_name field_name opts) opts = false := by
      cases hm : is_matrix_option (real_option_name field_name opts) opts
      · rfl
      · exact absurd ((is_matrix_option_eq_find _ opts).mp hm) hmat
    simp [set_rundata_field, hne, mxIsChar_of_numeric field hnum, hnum, single_value, hmany, this]
  · intro hchar hnum
    simp [set_rundata_field, hne, hchar, hnum]

/-- Witness of C3 as amended, at the 2 by 2 matrix under the name `m` with the schema
that declares `m` twice. -/
theorem set_rundata_field_dispatch_witness :
    real_option_name "m" twice_declared ≠ "loadmodels" ∧
    mxIsNumeric sample_matrix = true ∧ mxGetNumberOfElements sample_matrix ≠ 1 ∧
    (¬ ∃ spec, twice_declared.find? (fun spec => decide (spec.name = real_option_name "m" twice_declared))
        = some spec ∧ spec.type = OptionType.OPT_MATRIX) ∧
    set_rundata_field ostream_put_double id (some "fabmexa01234") twice_declared [2, 2, 1, 5] []
        "m" (some sample_matrix)
      = add_data id [] (real_option_name "m" twice_declared) sample_matrix [2, 2, 1, 5] :=
  ⟨by decide, by decide, by decide, by decide,
   ((set_rundata_field_dispatch ostream_put_double id (some "fabmexa01234") twice_declared
      [2, 2, 1, 5] [] "m" sample_matrix).2 (by decide)).2.2.2.1
        (by decide) (by decide) (by decide)⟩

/-- Counterexample to C3 as stated: the canonical name `m` is an entry of the schema of
kind MATRIX, the value is numeric with four elements, and yet `set_rundata` binds it as
voxel data and writes no matrix file. -/
theorem set_rundata_field_not_matrix :
    (∃ spec ∈ twice_declared, spec.name = real_option_name "m" twice_declared
        ∧ spec.type = OptionType.OPT_MATRIX) ∧
    mxIsNumeric sample_matrix = true ∧ mxGetNumberOfElements sample_matrix ≠ 1 ∧
    set_rundata_field ostream_put_double id (some "fabmexa01234") twice_declared [2, 2, 1, 5] []
        "m" (some sample_matrix)
      = Except.ok [Effect.SetVoxelDataArray "m" 1 [1, 2, 3, 4]] ∧
    add_matrixfile ostream_put_double (some "fabmexa01234") [] "m" sample_matrix
      = Except.ok [Effect.WriteFile "fabmexa01234/m.mat" "1\t3\t\n2\t4\t\n".data,
          Effect.Set "m" "fabmexa01234/m.mat"] ∧
    set_rundata_field ostream_put_double id (some "fabmexa01234") twice_declared [2, 2, 1, 5] []
        "m" (some sample_matrix)
      ≠ add_matrixfile ostream_put_double (some "fabmexa01234") [] "m" sample_matrix := by
  have hdata : set_rundata_field ostream_put_double id (some "fabmexa01234") twice_declared
      [2, 2, 1, 5] [] "m" (some sample_matrix)
      = Except.ok [Effect.SetVoxelDataArray "m" 1 [1, 2, 3, 4]] := rfl
  have hfile : add_matrixfile ostream_put_double (some "fabmexa01234") [] "m" sample_matrix
      = Except.ok [Effect.WriteFile "fabmexa01234/m.mat" "1\t3\t\n2\t4\t\n".data,
          Effect.Set "m" "fabmexa01234/m.mat"] := rfl
  refine ⟨⟨⟨"m", OptionType.OPT_MATRIX⟩, by decide, by decide, rfl⟩, by decide, by decide,
    hdata, hfile, ?_⟩
  rw [hdata, hfile]
  intro h
  cases h

/-! ## Schema resolution -/

theorem set_rundata_schema_no_model (registry : String → Option (List OptionSpec))
    (rd_str : List (String × Option (mxArray R S))) (model_options : List OptionSpec)
    (h : ∀ entry ∈ rd_str, entry.1 ≠ "model") :
    set_rundata_schema registry rd_str model_options = Except.ok model_options := by
  induction rd_str generalizing model_options with
  | nil => rfl
  | cons entry rest ih =>
    obtain ⟨field_name, field⟩ := entry
    have hne : field_name ≠ "model" := h (field_name, field) (List.mem_cons_self _ _)
    simp only [set_rundata_schema, hne, if_false]
    exact ih model_options (fun e he => h e (List.mem_cons_of_mem _ he))

theorem set_rundata_schema_one_model (registry : String → Option (List OptionSpec))
    (before after : List (String × Option (mxArray R S))) (field : mxArray R S)
    (model : String) (options : List OptionSpec)
    (hbefore : ∀ entry ∈ before, entry.1 ≠ "model")
    (hafter : ∀ entry ∈ after, entry.1 ≠ "model")
    (htext : mxArrayToString field = some model) (hknown : registry model = some options) :
    set_rundata_schema registry (before ++ ("model", some field) :: after) []
      = Except.ok options := by
  have hgen : ∀ (pre : List (String × Option (mxArray R S))) (acc : List OptionSpec),
      (∀ entry ∈ pre, entry.1 ≠ "model") →
      set_rundata_schema registry (pre ++ ("model", some field) :: after) acc
        = Except.ok options := by
    intro pre
    induction pre with
    | nil =>
      intro acc _
      simp only [List.nil_append, set_rundata_schema, if_true, Option.bind, htext,
        get_model_options, hknown]
      exact set_rundata_schema_no_model registry after options hafter
    | cons entry rest ih =>
      intro acc hpre
      obtain ⟨field_name, value⟩ := entry
      have hne : field_name ≠ "model" := hpre (field_name, value) (List.mem_cons_self _ _)
      simp only [List.cons_append, set_rundata_schema, hne, if_false]
      exact ih acc (fun e he => hpre e (List.mem_cons_of_mem _ he))
  exact hgen before [] hbefore

theorem fabber_cpp_schema_no_model (registry : String → Option (List OptionSpec))
    (rd_str : List (String × Option (mxArray R S))) (model_options : List String)
    (h : ∀ entry ∈ rd_str, entry.1 ≠ "model") :
    fabber_cpp.set_rundata_schema registry rd_str model_options = Except.ok model_options := by
  induction rd_str generalizing model_options with
  | nil => rfl
  | cons entry rest ih =>
    obtain ⟨field_name, field⟩ := entry
    have hne : field_name ≠ "model" := h (field_name, field) (List.mem_cons_self _ _)
    simp only [fabber_cpp.set_rundata_schema, hne, if_false]
    exact ih model_options (fun e he => h e (List.mem_cons_of_mem _ he))

theorem fabber_cpp_schema_any_model (registry : String → Option (List OptionSpec))
    (options : List OptionSpec) (hpoly : registry "poly" = some options)
    (rd_str : List (String × Option (mxArray R S))) (model_options : List String) :
    fabber_cpp.set_rundata_schema registry rd_str model_options
      = Except.ok (if rd_str.any (fun entry => decide (entry.1 = "model")) = true
          then options.map (fun spec => spec.name) else model_options) := by
  induction rd_str generalizing model_options with
  | nil => rfl
  | cons entry rest ih =>
    obtain ⟨field_name, field⟩ := entry
    by_cases hname : field_name = "model"
    · simp only [fabber_cpp.set_rundata_schema, hname, if_true, fabber_cpp.model_option_names,
        hpoly, ih, List.any_cons, decide_True, Bool.true_or]
      split <;> rfl
    · simp only [fabber_cpp.set_rundata_schema, hname, if_false, ih, List.any_cons,
        decide_False, Bool.false_or]

/-- C4, evaluated at the record whose model field is `linear`: `set_rundata` of
`fabber_wrapper.cpp` uses the options of `linear`, while `set_rundata` of `fabber.cpp`
uses the option names of `poly`, which are not those of `linear`. -/
theorem fabber_cpp_schema_is_poly :
    two_models "linear" = some [⟨"basis", OptionType.OPT_MATRIX⟩] ∧
    set_rundata_schema two_models linear_record []
      = Except.ok [⟨"basis", OptionType.OPT_MATRIX⟩] ∧
    fabber_cpp.set_rundata_schema two_models linear_record [] = Except.ok ["degree"] ∧
    fabber_cpp.model_option_names two_models "linear" = Except.ok ["basis"] := by
  refine ⟨rfl, rfl, rfl, rfl⟩

/-! ## Dimension checks -/

theorem dims_match_loop_iff (arr_dims dims_4d : List Nat) (left i : Nat) :
    dims_match_loop arr_dims dims_4d left i = true ↔
      ∀ k, i ≤ k → k < i + left → dims_4d.getD k 0 = arr_dims.getD k 0 := by
  induction left generalizing i with
  | zero =>
    simp only [dims_match_loop, true_iff]
    intro k h1 h2
    omega
  | succ left ih =>
    simp only [dims_match_loop]
    by_cases hne : dims_4d.getD i 0 ≠ arr_dims.getD i 0
    · rw [if_pos hne]
      constructor
      · intro h
        exact absurd h (by simp)
      · intro hall
        exact absurd (hall i (Nat.le_refl i) (by omega)) hne
    · have heq : dims_4d.getD i 0 = arr_dims.getD i 0 := not_not.mp hne
      rw [if_neg hne, ih (i + 1)]
      constructor
      · intro hall k h1 h2
        rcases Nat.eq_or_lt_of_le h1 with hk | hk
        · exact hk ▸ heq
        · exact hall k hk (by omega)
      · intro hall k h1 h2
        exact hall k (by omega) (by omega)

theorem dims_match_iff_getD (arr : mxArray R S) (dims_4d : List Nat) :
    dims_match arr dims_4d = true ↔
      ∀ k, k < min arr.dims.length 4 → dims_4d.getD k 0 = arr.dims.getD k 0 := by
  unfold dims_match mxGetNumberOfDimensions
  rw [dims_match_loop_iff]
  have hmin : (if arr.dims.length < 4 then arr.dims.length else 4) = min arr.dims.length 4 := by
    split <;> omega
  simp only [hmin, Nat.zero_add]
  constructor
  · intro hall k hk
    exact hall k (Nat.zero_le k) hk
  · intro hall k _ hk
    exact hall k hk

theorem dims_match_take (arr : mxArray R S) (dims_4d : List Nat) :
    dims_match { arr with dims := arr.dims.take 4 } dims_4d = dims_match arr dims_4d := by
  rw [Bool.eq_iff_iff, dims_match_iff_getD, dims_match_iff_getD]
  have hlen : min (List.take 4 arr.dims).length 4 = min arr.dims.length 4 := by
    simp only [List.length_take]
    omega
  have hget : ∀ k, k < min arr.dims.length 4 →
      (List.take 4 arr.dims).getD k 0 = arr.dims.getD k 0 := by
    intro k hk
    have hk4 : k < 4 := by omega
    simp [List.getD_eq_getElem?_getD, List.getElem?_take, hk4]
  simp only [hlen]
  constructor
  · intro hall k hk
    rw [← hget k hk]
    exact hall k hk
  · intro hall k hk
    rw [hget k hk]
    exact hall k hk

theorem fabber_cpp_dims_match_loop_eq (arr_dims dims_4d : List Nat) (left i : Nat) :
    fabber_cpp.dims_match_loop arr_dims dims_4d left i
      = if dims_match_loop arr_dims dims_4d left i = true then Except.ok ()
        else Except.error "Fabber:run:dims_match" := by
  induction left generalizing i with
  | zero => simp [fabber_cpp.dims_match_loop, dims_match_loop]
  | succ left ih =>
    simp only [fabber_cpp.dims_match_loop, dims_match_loop]
    by_cases hne : dims_4d.getD i 0 ≠ arr_dims.getD i 0
    · simp only [if_pos hne]
      simp
    · simp only [if_neg hne]
      exact ih (i + 1)

/-- C5: for a reference list of four dimensions, `dims_match` holds exactly when the
array and the reference agree at every index below the smaller of the rank and 4;
`check_dims`, `add_data` and the `dims_match` of `fabber.cpp` raise their
dimension error exactly when `dims_match` fails; and the dimensions after the fourth
play no part. -/
theorem dims_match_spec (arr : mxArray R S) (dims_4d : List Nat) (h4 : dims_4d.length = 4) :
    (dims_match arr dims_4d = true ↔
      ∀ i : Nat, i < min arr.dims.length 4 → arr.dims[i]? = dims_4d[i]?) ∧
    (check_dims arr dims_4d = Except.error "Fabber:run:check_dims" ↔
      dims_match arr dims_4d = false) ∧
    (∀ (d2f : R → S) (fab : FabberRunDataArray R S) (key : String),
      add_data d2f fab key arr dims_4d = Except.error "Fabber:run:check_dims" ↔
        dims_match arr dims_4d = false) ∧
    (fabber_cpp.dims_match arr dims_4d = Except.error "Fabber:run:dims_match" ↔
      dims_match arr dims_4d = false) ∧
    dims_match { arr with dims := arr.dims.take 4 } dims_4d = dims_match arr dims_4d := by
  refine ⟨?_, ?_, ?_, ?_, dims_match_take arr dims_4d⟩
  · rw [dims_match_iff_getD]
    constructor
    · intro hall i hi
      have h1 : i < arr.dims.length := by omega
      have h2 : i < dims_4d.length := by omega
      have := hall i hi
      simp only [List.getD_eq_getElem?_getD, List.getElem?_eq_getElem h1,
        List.getElem?_eq_getElem h2, Option.getD_some] at this
      rw [List.getElem?_eq_getElem h1, List.getElem?_eq_getElem h2, this]
    · intro hall i hi
      have h1 : i < arr.dims.length := by omega
      have h2 : i < dims_4d.length := by omega
      have := hall i hi
      rw [List.getElem?_eq_getElem h1, List.getElem?_eq_getElem h2] at this
      simp only [List.getD_eq_getElem?_getD, List.getElem?_eq_getElem h1,
        List.getElem?_eq_getElem h2, Option.getD_some]
      exact (Option.some.inj this).symm
  · unfold check_dims
    cases dims_match arr dims_4d <;> simp
  · intro d2f fab key
    unfold add_data check_dims
    cases hm : dims_match arr dims_4d
    · simp
    · simp only [Bool.not_true, Bool.false_eq_true, if_false]
      constructor
      · intro h
        split at h
        · exact absurd h (by simp)
        · split at h
          · exact absurd h (by simp)
          · exact absurd h (by simp [undefined_behaviour])
      · intro h
        exact absurd h (by simp)
  · unfold fabber_cpp.dims_match
    rw [fabber_cpp_dims_match_loop_eq]
    unfold dims_match
    cases dims_match_loop arr.dims dims_4d
        (if mxGetNumberOfDimensions arr < 4 then mxGetNumberOfDimensions arr else 4) 0 <;> simp

/-- Witness of C5 at the rank 5 array, whose first four dimensions are those of the
reference. -/
theorem dims_match_spec_witness :
    [2, 1, 1, 2].length = 4 ∧ dims_match rank_five [2, 1, 1, 2] = true ∧
    ∀ i : Nat, i < min rank_five.dims.length 4 → rank_five.dims[i]? = [2, 1, 1, 2][i]? :=
  ⟨rfl, by decide, (dims_match_spec rank_five [2, 1, 1, 2] rfl).1.mp (by decide)⟩

/-! ## Voxel data -/

theorem copy_loop_eq (d2f : R → S) (data : List R) (left i : Nat) (fdata : List S)
    (h : i + left ≤ data.length) :
    copy_loop d2f data left i fdata
      = some (fdata ++ ((data.drop i).take left).map d2f) := by
  induction left generalizing i fdata with
  | zero => simp [copy_loop]
  | succ left ih =>
    have hi : i < data.length := by omega
    have hdrop : data.drop i = data[i] :: data.drop (i + 1) := List.drop_eq_getElem_cons hi
    simp only [copy_loop, List.get?_eq_getElem?, List.getElem?_eq_getElem hi]
    rw [ih (i + 1) (fdata ++ [d2f data[i]]) (by omega), hdrop]
    simp only [List.take_succ_cons, List.map_cons, List.append_assoc, List.cons_append,
      List.nil_append]

/-- What `add_data` registers for an array it accepts: the series length is the fourth
dimension when the rank is exactly 4 and 1 for every other rank, and the buffer is the
element-wise `float` conversion of the array's buffer. -/
theorem add_data_accepted (d2f : R → S) (fab : FabberRunDataArray R S) (key : String)
    (arr : mxArray R S) (dims_4d : List Nat)
    (hmatch : dims_match arr dims_4d = true) (hdouble : mxIsDouble arr = true)
    (hlen : (doubleData arr).length = mxGetNumberOfElements arr) :
    add_data d2f fab key arr dims_4d
      = Except.ok (fab ++ [Effect.SetVoxelDataArray key
          (if arr.dims.length = 4 then arr.dims.getD 3 0 % 2 ^ 32 else 1)
          ((doubleData arr).map d2f)]) := by
  unfold add_data check_dims
  simp only [hmatch, hdouble, Bool.not_true, Bool.false_eq_true, if_false]
  rw [copy_loop_eq d2f (doubleData arr) (mxGetNumberOfElements arr) 0 [] (by omega)]
  simp [add_data_size, mxGetNumberOfDimensions, ← hlen]

/-- C6, evaluated at a 2 by 2 option array with main data of dimensions 2, 2, 3, 5: the
third dimension of the array, counted as 1, differs from 3, and yet `add_data` raises
no error and registers the four values as voxel data. -/
theorem add_data_accepts_rank_two :
    sample_matrix.dims = [2, 2] ∧
    dims_match sample_matrix [2, 2, 3, 5] = true ∧
    add_data id [] "prior" sample_matrix [2, 2, 3, 5]
      = Except.ok [Effect.SetVoxelDataArray "prior" 1 [1, 2, 3, 4]] ∧
    set_rundata_field ostream_put_double id none [] [2, 2, 3, 5] [] "prior" (some sample_matrix)
      = Except.ok [Effect.SetVoxelDataArray "prior" 1 [1, 2, 3, 4]] := by
  refine ⟨rfl, rfl, rfl, rfl⟩

/-- C7, evaluated at a `double` array of dimensions 2, 1, 1, 2, 2 with main data of
dimensions 2, 1, 1, 2: `add_data` accepts the array, whose fourth dimension is 2, and
registers its eight values with series length 1. -/
theorem add_data_rank_five_size :
    rank_five.dims[3]? = some 2 ∧
    add_data id [] "series" rank_five [2, 1, 1, 2]
      = Except.ok [Effect.SetVoxelDataArray "series" 1 [1, 2, 3, 4, 5, 6, 7, 8]] := by
  refine ⟨rfl, rfl⟩

/-! ## Fixed outputs -/

theorem get_outputs_fixed_source_keys (GetBool : String → Bool) (outputs : List String) :
    get_outputs_fixed GetBool outputs
      = outputs ++ (fixed_switches.filter (fun entry => GetBool entry.1)).map (fun entry => entry.2) := by
  simp only [get_outputs_fixed, fixed_switches, List.filter]
  cases GetBool "save-model-fit" <;> cases GetBool "save-residuals" <;>
    cases GetBool "save-free-energy" <;> cases GetBool "save-noise_mean" <;>
    cases GetBool "save-noise_std" <;> cases GetBool "save-mvn" <;> simp

/-- C10, evaluated at the switches save-mean and save-noise-mean with one parameter
`c0`: the list is `mean_c0` alone, and `noise_means` is not in it, because the source
reads the switch under the key `save-noise_mean`. -/
theorem get_outputs_misses_noise_mean :
    mean_and_noise_mean "save-noise-mean" = true ∧
    (get_outputs mean_and_noise_mean ["c0"] []).1 = ["mean_c0"] ∧
    "noise_means" ∉ (get_outputs mean_and_noise_mean ["c0"] []).1 := by
  refine ⟨rfl, rfl, by decide⟩

/-! ## Matrix files -/

theorem int_of_mwSize_small (n : Nat) (h : n < 2 ^ 31) : int_of_mwSize n = (n : Int) := by
  have hmod : n % 2 ^ 32 = n := Nat.mod_eq_of_lt (by omega)
  unfold int_of_mwSize
  rw [hmod, if_pos h]

theorem cint_of_mwSize_val (n : Nat) (h : n < 2 ^ 31) : (cint_of_mwSize n).val = (n : Int) :=
  int_of_mwSize_small n h

theorem matrix_row_loop_eq (fmt : R → List Char) (data : List R) (nx x : Nat)
    (left y : Nat) (out : List Char)
    (h : ∀ k, y ≤ k → k < y + left → k * nx + x < data.length)
    (hfit : ∀ k, y ≤ k → k < y + left → k * nx + x < 2 ^ 31) :
    ∃ row : List R, row.length = left ∧
      (∀ j, j < left → row[j]? = data[(y + j) * nx + x]?) ∧
      matrix_row_loop fmt data nx x left y out
        = some (out ++ (row.map (fun val => fmt val ++ ['\t'])).flatten) := by
  induction left generalizing y out with
  | zero => exact ⟨[], rfl, fun j hj => absurd hj (Nat.not_lt_zero j), by simp [matrix_row_loop]⟩
  | succ left ih =>
    have hy : y * nx + x < data.length := h y (Nat.le_refl y) (by omega)
    have hyfit : ¬ 2 ^ 31 ≤ y * nx + x := by
      have := hfit y (Nat.le_refl y) (by omega)
      omega
    obtain ⟨row, hlen, hget, hloop⟩ := ih (y + 1) (out ++ fmt data[y * nx + x] ++ ['\t'])
      (fun k h1 h2 => h k (by omega) (by omega))
      (fun k h1 h2 => hfit k (by omega) (by omega))
    refine ⟨data[y * nx + x] :: row, by simp [hlen], ?_, ?_⟩
    · intro j hj
      cases j with
      | zero => simp [List.getElem?_eq_getElem hy]
      | succ j =>
        have := hget j (by omega)
        simp only [List.getElem?_cons_succ, this]
        congr 2
        ring
    · simp only [matrix_row_loop, if_neg hyfit, List.get?_eq_getElem?,
        List.getElem?_eq_getElem hy, hloop]
      simp

theorem matrix_loop_eq (fmt : R → List Char) (data : List R) (nx ny : Nat)
    (left x : Nat) (out : List Char)
    (h : ∀ i, x ≤ i → i < x + left → ∀ k, k < ny → k * nx + i < data.length)
    (hfit : ∀ i, x ≤ i → i < x + left → ∀ k, k < ny → k * nx + i < 2 ^ 31) :
    ∃ rows : List (List R), rows.length = left ∧
      (∀ i, i < left → ∃ row, rows[i]? = some row ∧ row.length = ny ∧
        ∀ j, j < ny → row[j]? = data[j * nx + (x + i)]?) ∧
      matrix_loop fmt data nx ny left x out
        = some (out ++ (rows.map (fun row =>
            (row.map (fun val => fmt val ++ ['\t'])).flatten ++ ['\n'])).flatten) := by
  induction left generalizing x out with
  | zero => exact ⟨[], rfl, fun i hi => absurd hi (Nat.not_lt_zero i), by simp [matrix_loop]⟩
  | succ left ih =>
    obtain ⟨row, hrlen, hrget, hrloop⟩ := matrix_row_loop_eq fmt data nx x ny 0 out
      (fun k _ h2 => h x (Nat.le_refl x) (by omega) k (by omega))
      (fun k _ h2 => hfit x (Nat.le_refl x) (by omega) k (by omega))
    obtain ⟨rows, hlen, hget, hloop⟩ := ih (x + 1)
      (out ++ (row.map (fun val => fmt val ++ ['\t'])).flatten ++ ['\n'])
      (fun i h1 h2 => h i (by omega) (by omega))
      (fun i h1 h2 => hfit i (by omega) (by omega))
    refine ⟨row :: rows, by simp [hlen], ?_, ?_⟩
    · intro i hi
      cases i with
      | zero =>
        refine ⟨row, by simp, hrlen, fun j hj => ?_⟩
        have := hrget j hj
        simpa using this
      | succ i =>
        obtain ⟨row2, h1, h2, h3⟩ := hget i (by omega)
        refine ⟨row2, by simpa using h1, h2, fun j hj => ?_⟩
        rw [h3 j hj]
        congr 2
        ring
    · simp only [matrix_loop, hrloop, hloop]
      simp

theorem matrix_text_eq (fmt : R → List Char) (data : List R) (nx ny : CInt) (r c : Nat)
    (hnx : nx.val = (r : Int)) (hny : ny.val = (c : Int))
    (hlen : data.length = r * c) (hfit : r * c ≤ 2 ^ 31) :
    ∃ rows : List (List R), rows.length = r ∧
      (∀ i, i < r → ∃ row, rows[i]? = some row ∧ row.length = c ∧
        ∀ j, j < c → row[j]? = data[j * r + i]?) ∧
      matrix_text fmt data nx ny
        = some ((rows.map (fun row =>
            (row.map (fun val => fmt val ++ ['\t'])).flatten ++ ['\n'])).flatten) := by
  have hindex : ∀ i, i < r → ∀ k, k < c → k * r + i < r * c := by
    intro i hi k hk
    have h1 : (k + 1) * r ≤ c * r := Nat.mul_le_mul_right r (by omega)
    rw [Nat.mul_comm r c]
    rw [Nat.succ_mul] at h1
    omega
  have hbound : ∀ i, 0 ≤ i → i < 0 + r → ∀ k, k < c → k * r + i < data.length := by
    intro i _ hi k hk
    rw [hlen]
    exact hindex i (by omega) k hk
  have hbound2 : ∀ i, 0 ≤ i → i < 0 + r → ∀ k, k < c → k * r + i < 2 ^ 31 := by
    intro i _ hi k hk
    have := hindex i (by omega) k hk
    omega
  obtain ⟨rows, h1, h2, h3⟩ := matrix_loop_eq fmt data r c r 0 [] hbound hbound2
  refine ⟨rows, h1, fun i hi => ?_, ?_⟩
  · obtain ⟨row, g1, g2, g3⟩ := h2 i hi
    refine ⟨row, g1, g2, fun j hj => ?_⟩
    have := g3 j hj
    simpa using this
  · simpa [matrix_text, hnx, hny] using h3

theorem split_terminated_piece (sep : Char) (w rest piece : List Char) (h : sep ∉ w) :
    split_terminated sep (w ++ sep :: rest) piece
      = (piece ++ w) :: split_terminated sep rest [] := by
  induction w generalizing piece with
  | nil => simp [split_terminated]
  | cons ch w ih =>
    have hne : ch ≠ sep := fun heq => h (heq ▸ List.mem_cons_self _ _)
    have hw : sep ∉ w := fun hin => h (List.mem_cons_of_mem _ hin)
    have hstep : split_terminated sep ((ch :: w) ++ sep :: rest) piece
        = split_terminated sep (w ++ sep :: rest) (piece ++ [ch]) := by
      simp only [List.cons_append, split_terminated, hne, if_false]
      rfl
    rw [hstep, ih (piece ++ [ch]) hw]
    simp

theorem split_terminated_flatten (sep : Char) (ws : List (List Char))
    (h : ∀ w ∈ ws, sep ∉ w) :
    split_terminated sep ((ws.map (fun w => w ++ [sep])).flatten) [] = ws := by
  induction ws with
  | nil => simp [split_terminated]
  | cons w ws ih =>
    have hw : sep ∉ w := h w (List.mem_cons_self _ _)
    simp only [List.map_cons, List.flatten_cons, List.append_assoc, List.singleton_append]
    rw [split_terminated_piece sep w _ [] hw, ih (fun v hv => h v (List.mem_cons_of_mem _ hv))]
    simp

theorem read_cells_map (fmt : R → List Char) (rd : List Char → Option R) (row : List R)
    (h : ∀ val ∈ row, rd (fmt val) = some val) :
    read_cells rd (row.map fmt) = some row := by
  induction row with
  | nil => rfl
  | cons val row ih =>
    simp only [List.map_cons, read_cells, h val (List.mem_cons_self _ _),
      ih (fun v hv => h v (List.mem_cons_of_mem _ hv))]

theorem read_rows_lines (fmt : R → List Char) (rd : List Char → Option R)
    (rows : List (List R))
    (hsep : ∀ row ∈ rows, ∀ val ∈ row, '\t' ∉ fmt val)
    (hrd : ∀ row ∈ rows, ∀ val ∈ row, rd (fmt val) = some val) :
    read_rows rd (rows.map (fun row => (row.map (fun val => fmt val ++ ['\t'])).flatten))
      = some rows := by
  induction rows with
  | nil => rfl
  | cons row rows ih =>
    have hsplit : split_terminated '\t' ((row.map (fun val => fmt val ++ ['\t'])).flatten) []
        = row.map fmt := by
      have := split_terminated_flatten '\t' (row.map fmt) (by
        intro w hw
        obtain ⟨val, hval, rfl⟩ := List.mem_map.mp hw
        exact hsep row (List.mem_cons_self _ _) val hval)
      simpa [List.map_map, Function.comp_def] using this
    simp only [List.map_cons, read_rows, hsplit,
      read_cells_map fmt rd row (hrd row (List.mem_cons_self _ _)),
      ih (fun r hr => hsep r (List.mem_cons_of_mem _ hr))
        (fun r hr => hrd r (List.mem_cons_of_mem _ hr))]

theorem read_matrix_text (fmt : R → List Char) (rd : List Char → Option R)
    (rows : List (List R))
    (htab : ∀ row ∈ rows, ∀ val ∈ row, '\t' ∉ fmt val)
    (hnl : ∀ row ∈ rows, ∀ val ∈ row, '\n' ∉ fmt val)
    (hrd : ∀ row ∈ rows, ∀ val ∈ row, rd (fmt val) = some val) :
    read_matrix rd ((rows.map (fun row =>
        (row.map (fun val => fmt val ++ ['\t'])).flatten ++ ['\n'])).flatten) = some rows := by
  have hlines : ∀ line ∈ rows.map (fun row => (row.map (fun val => fmt val ++ ['\t'])).flatten),
      '\n' ∉ line := by
    intro line hline
    obtain ⟨row, hrow, rfl⟩ := List.mem_map.mp hline
    intro hin
    obtain ⟨cell, hcell, hmem⟩ := List.mem_flatten.mp hin
    obtain ⟨val, hval, rfl⟩ := List.mem_map.mp hcell
    rcases List.mem_append.mp hmem with h | h
    · exact hnl row hrow val hval h
    · simp at h
  have := split_terminated_flatten '\n' _ hlines
  simp only [List.map_map, Function.comp_def] at this
  unfold read_matrix
  rw [this]
  exact read_rows_lines fmt rd rows htab hrd

theorem add_matrixfile_text (fmt : R → List Char) (dir key : String)
    (fab : FabberRunDataArray R S) (cx : Bool) (data : List R) (r c : Nat)
    (hr : r < 2 ^ 31) (hc : c < 2 ^ 31) (hlen : data.length = r * c) (hfit : r * c ≤ 2 ^ 31) :
    ∃ rows : List (List R), rows.length = r ∧
      (∀ i, i < r → ∃ row, rows[i]? = some row ∧ row.length = c ∧
        ∀ j, j < c → row[j]? = data[j * r + i]?) ∧
      add_matrixfile fmt (some dir) fab key
          ⟨mxClassID.mxDOUBLE_CLASS, cx, [r, c], mxData.doubles data⟩
        = Except.ok (fab ++ [Effect.WriteFile (dir ++ "/" ++ key ++ ".mat")
              ((rows.map (fun row =>
                (row.map (fun val => fmt val ++ ['\t'])).flatten ++ ['\n'])).flatten),
            Effect.Set key (dir ++ "/" ++ key ++ ".mat")]) := by
  obtain ⟨rows, h1, h2, h3⟩ := matrix_text_eq fmt data (cint_of_mwSize r) (cint_of_mwSize c) r c
    (cint_of_mwSize_val r hr) (cint_of_mwSize_val c hc) hlen hfit
  refine ⟨rows, h1, h2, ?_⟩
  simp [add_matrixfile, mxGetNumberOfDimensions, mxIsDouble, doubleData, matrix_to_tempfile, h3]

/-- C9, as amended: for a 2D `double` array with other than one element, given to
`set_rundata` under a name the schema declares as a matrix, with dimensions that fit
an `int` and at most 2^31 elements, a file is written, and the matrix read back from
its text has the original element at every position, provided the printed form of each
element (which the stream writes with six significant digits) contains neither
separator and reads back as that element. -/
theorem matrix_option_read_back (fmt : R → List Char) (d2f : R → S)
    (rd : List Char → Option R) (dir : String) (opts : List OptionSpec) (dims_4d : List Nat)
    (fab : FabberRunDataArray R S) (field_name : String) (cx : Bool)
    (data : List R) (r c : Nat)
    (hname : real_option_name field_name opts ≠ "loadmodels")
    (hmatrix : is_matrix_option (real_option_name field_name opts) opts = true)
    (hmany : r * c ≠ 1)
    (hr : r < 2 ^ 31) (hc : c < 2 ^ 31) (hlen : data.length = r * c) (hfit : r * c ≤ 2 ^ 31)
    (hsep : ∀ val ∈ data, '\t' ∉ fmt val ∧ '\n' ∉ fmt val)
    (hrd : ∀ val ∈ data, rd (fmt val) = some val) :
    ∃ text rows,
      set_rundata_field fmt d2f (some dir) opts dims_4d fab field_name
          (some ⟨mxClassID.mxDOUBLE_CLASS, cx, [r, c], mxData.doubles data⟩)
        = Except.ok (fab ++ [Effect.WriteFile
              (dir ++ "/" ++ real_option_name field_name opts ++ ".mat") text,
            Effect.Set (real_option_name field_name opts)
              (dir ++ "/" ++ real_option_name field_name opts ++ ".mat")]) ∧
      read_matrix rd text = some rows ∧ rows.length = r ∧
      ∀ i, i < r → ∃ row, rows[i]? = some row ∧ row.length = c ∧
        ∀ j, j < c → row[j]? = data[j * r + i]? := by
  obtain ⟨rows, h1, h2, h3⟩ := add_matrixfile_text fmt dir (real_option_name field_name opts)
    fab cx data r c hr hc hlen hfit
  have hmem : ∀ row ∈ rows, ∀ val ∈ row, val ∈ data := by
    intro row hrow val hval
    obtain ⟨i, hi, hrowi⟩ := List.getElem_of_mem hrow
    obtain ⟨j, hj, hvalj⟩ := List.getElem_of_mem hval
    obtain ⟨row2, g1, g2, g3⟩ := h2 i (h1 ▸ hi)
    have hrow2 : row2 = row := by
      rw [List.getElem?_eq_getElem hi, hrowi] at g1
      exact (Option.some.inj g1).symm
    subst hrow2
    have hget := g3 j (g2 ▸ hj)
    rw [List.getElem?_eq_getElem hj, hvalj] at hget
    exact List.getElem?_mem hget.symm
  have hnumel : ¬ r * c = 1 := hmany
  refine ⟨(rows.map (fun row =>
      (row.map (fun val => fmt val ++ ['\t'])).flatten ++ ['\n'])).flatten, rows, ?_, ?_, h1, h2⟩
  · rw [← h3]
    simp [set_rundata_field, hname, hmatrix, mxIsChar, mxIsNumeric, single_value,
      mxGetNumberOfElements, hnumel]
  · exact read_matrix_text fmt rd rows
      (fun row hrow val hval => (hsep val (hmem row hrow val hval)).1)
      (fun row hrow val hval => (hsep val (hmem row hrow val hval)).2)
      (fun row hrow val hval => hrd val (hmem row hrow val hval))

/-- Witness of C9 as amended, at the 2 by 3 matrix of the integers 1 to 6 given as the
matrix option `basis`: each integer is written in full and read back by the decimal
reader. -/
theorem matrix_option_read_back_witness :
    real_option_name "basis" basis_schema ≠ "loadmodels" ∧
    is_matrix_option (real_option_name "basis" basis_schema) basis_schema = true ∧
    2 * 3 ≠ 1 ∧ [1, 2, 3, 4, 5, 6].length = 2 * 3 ∧ 2 * 3 ≤ 2 ^ 31 ∧
    (∀ val ∈ [1, 2, 3, 4, 5, 6],
      '\t' ∉ ostream_put_double val ∧ '\n' ∉ ostream_put_double val) ∧
    (∀ val ∈ [1, 2, 3, 4, 5, 6], read_decimal (ostream_put_double val) = some val) ∧
    set_rundata_field ostream_put_double id (some "fabmexa01234") basis_schema [2, 2, 1, 5] []
        "basis" (some two_by_three)
      = Except.ok [Effect.WriteFile "fabmexa01234/basis.mat" "1\t3\t5\t\n2\t4\t6\t\n".data,
          Effect.Set "basis" "fabmexa01234/basis.mat"] ∧
    read_matrix read_decimal "1\t3\t5\t\n2\t4\t6\t\n".data = some [[1, 3, 5], [2, 4, 6]] ∧
    ∃ text rows,
      set_rundata_field ostream_put_double id (some "fabmexa01234") basis_schema [2, 2, 1, 5] []
          "basis" (some ⟨mxClassID.mxDOUBLE_CLASS, false, [2, 3],
            mxData.doubles [1, 2, 3, 4, 5, 6]⟩)
        = Except.ok ([] ++ [Effect.WriteFile
              ("fabmexa01234" ++ "/" ++ real_option_name "basis" basis_schema ++ ".mat") text,
            Effect.Set (real_option_name "basis" basis_schema)
              ("fabmexa01234" ++ "/" ++ real_option_name "basis" basis_schema ++ ".mat")]) ∧
      read_matrix read_decimal text = some rows ∧ rows.length = 2 ∧
      ∀ i, i < 2 → ∃ row, rows[i]? = some row ∧ row.length = 3 ∧
        ∀ j, j < 3 → row[j]? = [1, 2, 3, 4, 5, 6][j * 2 + i]? :=
  ⟨by decide, by decide, by decide, rfl, by decide, by decide, by decide, rfl, by decide,
   matrix_option_read_back ostream_put_double id read_decimal "fabmexa01234" basis_schema
    [2, 2, 1, 5] [] "basis" false [1, 2, 3, 4, 5, 6] 2 3 (by decide) (by decide) (by decide)
    (by decide) (by decide) rfl (by decide) (by decide) (by decide)⟩

/-- Counterexample to C9 as stated: given as the matrix option `basis`, the 1 by 2
matrices (1234567, 1) and (1234568, 1) are written to files of the same text, so no
way of parsing the file gives back the original matrix for both. -/
theorem matrix_file_not_injective :
    set_rundata_field ostream_put_double id (some "fabmexa01234") basis_schema [2, 2, 1, 5] []
        "basis" (some (one_by_two 1234567))
      = Except.ok [Effect.WriteFile "fabmexa01234/basis.mat" "1.23457e+06\t1\t\n".data,
          Effect.Set "basis" "fabmexa01234/basis.mat"] ∧
    set_rundata_field ostream_put_double id (some "fabmexa01234") basis_schema [2, 2, 1, 5] []
        "basis" (some (one_by_two 1234568))
      = Except.ok [Effect.WriteFile "fabmexa01234/basis.mat" "1.23457e+06\t1\t\n".data,
          Effect.Set "basis" "fabmexa01234/basis.mat"] ∧
    ¬ ∃ parse : List Char → Option (List (List Nat)),
      ∀ val : Nat, ∃ text,
        set_rundata_field ostream_put_double id (some "fabmexa01234") basis_schema [2, 2, 1, 5]
            [] "basis" (some (one_by_two val))
          = Except.ok [Effect.WriteFile "fabmexa01234/basis.mat" text,
              Effect.Set "basis" "fabmexa01234/basis.mat"] ∧
        parse text = some [[val, 1]] := by
  have h1 : set_rundata_field ostream_put_double id (some "fabmexa01234") basis_schema
      [2, 2, 1, 5] [] "basis" (some (one_by_two 1234567))
      = Except.ok [Effect.WriteFile "fabmexa01234/basis.mat" "1.23457e+06\t1\t\n".data,
          Effect.Set "basis" "fabmexa01234/basis.mat"] := rfl
  have h2 : set_rundata_field ostream_put_double id (some "fabmexa01234") basis_schema
      [2, 2, 1, 5] [] "basis" (some (one_by_two 1234568))
      = Except.ok [Effect.WriteFile "fabmexa01234/basis.mat" "1.23457e+06\t1\t\n".data,
          Effect.Set "basis" "fabmexa01234/basis.mat"] := rfl
  refine ⟨h1, h2, ?_⟩
  rintro ⟨parse, hparse⟩
  obtain ⟨t1, ht1, hp1⟩ := hparse 1234567
  obtain ⟨t2, ht2, hp2⟩ := hparse 1234568
  rw [h1] at ht1
  rw [h2] at ht2
  have e1 : t1 = "1.23457e+06\t1\t\n".data := by
    simp only [Except.ok.injEq, List.cons.injEq, Effect.WriteFile.injEq, true_and,
      and_true] at ht1
    exact ht1.symm
  have e2 : t2 = "1.23457e+06\t1\t\n".data := by
    simp only [Except.ok.injEq, List.cons.injEq, Effect.WriteFile.injEq, true_and,
      and_true] at ht2
    exact ht2.symm
  rw [e1] at hp1
  rw [e2, hp1] at hp2
  simp at hp2

/-! ## The output list as a whole -/

theorem get_outputs_list_eq (GetBool : String → Bool) (params extra_outputs : List String) :
    (get_outputs GetBool params extra_outputs).1
      = if params.flatMap (param_outputs GetBool)
            ++ (if GetBool "save-model-extras" then extra_outputs else [])
            ++ (fixed_switches.filter (fun entry => GetBool entry.1)).map (fun entry => entry.2)
            = []
        then ["modelfit"]
        else params.flatMap (param_outputs GetBool)
            ++ (if GetBool "save-model-extras" then extra_outputs else [])
            ++ (fixed_switches.filter (fun entry => GetBool entry.1)).map (fun entry => entry.2) := by
  have hlist : get_outputs_fixed GetBool
        (if GetBool "save-model-extras" then
          get_outputs_extras extra_outputs (get_outputs_params GetBool params [])
         else get_outputs_params GetBool params [])
      = params.flatMap (param_outputs GetBool)
          ++ (if GetBool "save-model-extras" then extra_outputs else [])
          ++ (fixed_switches.filter (fun entry => GetBool entry.1)).map (fun entry => entry.2) := by
    rw [get_outputs_fixed_source_keys]
    cases GetBool "save-model-extras" <;>
      simp [get_outputs_params_eq, get_outputs_extras_eq]
  simp only [get_outputs, hlist, List.length_eq_zero]
  generalize params.flatMap (param_outputs GetBool)
      ++ (if GetBool "save-model-extras" then extra_outputs else [])
      ++ (fixed_switches.filter (fun entry => GetBool entry.1)).map (fun entry => entry.2)
      = all
  by_cases hnil : all = []
  · simp [hnil]
  · simp [hnil]

theorem get_outputs_switches_eq (GetBool : String → Bool) (params extra_outputs : List String) :
    (get_outputs GetBool params extra_outputs).2
      = if params.flatMap (param_outputs GetBool)
            ++ (if GetBool "save-model-extras" then extra_outputs else [])
            ++ (fixed_switches.filter (fun entry => GetBool entry.1)).map (fun entry => entry.2)
            = []
        then SetBool GetBool "save-model-fit"
        else GetBool := by
  have hlist : get_outputs_fixed GetBool
        (if GetBool "save-model-extras" then
          get_outputs_extras extra_outputs (get_outputs_params GetBool params [])
         else get_outputs_params GetBool params [])
      = params.flatMap (param_outputs GetBool)
          ++ (if GetBool "save-model-extras" then extra_outputs else [])
          ++ (fixed_switches.filter (fun entry => GetBool entry.1)).map (fun entry => entry.2) := by
    rw [get_outputs_fixed_source_keys]
    cases GetBool "save-model-extras" <;>
      simp [get_outputs_params_eq, get_outputs_extras_eq]
  simp only [get_outputs, hlist, List.length_eq_zero]
  generalize params.flatMap (param_outputs GetBool)
      ++ (if GetBool "save-model-extras" then extra_outputs else [])
      ++ (fixed_switches.filter (fun entry => GetBool entry.1)).map (fun entry => entry.2)
      = all
  by_cases hnil : all = []
  · simp [hnil]
  · simp [hnil]

/-- C11: the list `get_outputs` returns is never empty; when the switches select no
parameter-derived name, no model extra and no fixed output (the switches being read
under the keys of the source), the list is `modelfit` alone and save-model-fit reads
as set afterwards. -/
theorem get_outputs_nonempty (GetBool : String → Bool) (params extra_outputs : List String) :
    (get_outputs GetBool params extra_outputs).1 ≠ [] ∧
    (params.flatMap (param_outputs GetBool) = [] →
      (if GetBool "save-model-extras" then extra_outputs else []) = [] →
      (∀ entry ∈ fixed_switches, GetBool entry.1 = false) →
      (get_outputs GetBool params extra_outputs).1 = ["modelfit"] ∧
      (get_outputs GetBool params extra_outputs).2 "save-model-fit" = true) := by
  constructor
  · rw [get_outputs_list_eq]
    generalize params.flatMap (param_outputs GetBool)
        ++ (if GetBool "save-model-extras" then extra_outputs else [])
        ++ (fixed_switches.filter (fun entry => GetBool entry.1)).map (fun entry => entry.2)
        = all
    by_cases hnil : all = []
    · simp [hnil]
    · simp [hnil]
  · intro hparams hextras hfixed
    have hfilter : fixed_switches.filter (fun entry => GetBool entry.1) = [] := by
      rw [List.filter_eq_nil_iff]
      intro entry hentry
      simp [hfixed entry hentry]
    rw [get_outputs_list_eq, get_outputs_switches_eq, hparams, hextras, hfilter]
    simp [SetBool]

/-- Witness of C11 with every switch off, one parameter and one model extra. -/
theorem get_outputs_nonempty_witness :
    ["c0"].flatMap (param_outputs (fun _ => false)) = [] ∧
    (if (fun _ => false) "save-model-extras" = true then ["extra"] else []) = ([] : List String) ∧
    (∀ entry ∈ fixed_switches, (fun _ => false) entry.1 = false) ∧
    (get_outputs (fun _ => false) ["c0"] ["extra"]).1 = ["modelfit"] ∧
    (get_outputs (fun _ => false) ["c0"] ["extra"]).2 "save-model-fit" = true :=
  ⟨rfl, rfl, fun _ _ => rfl,
   (get_outputs_nonempty (fun _ => false) ["c0"] ["extra"]).2 rfl rfl (fun _ _ => rfl)⟩

/-! ## Distinct output names -/

theorem mem_param_outputs (GetBool : String → Bool) (name x : String)
    (h : x ∈ param_outputs GetBool name) :
    x = "mean_" ++ name ∨ x = "stdev_" ++ name ∨ x = "zstat_" ++ name := by
  unfold param_outputs at h
  simp only [List.mem_append] at h
  rcases h with (h | h) | h
  · split at h
    · exact Or.inl (by simpa using h)
    · simp at h
  · split at h
    · exact Or.inr (Or.inl (by simpa using h))
    · simp at h
  · split at h
    · exact Or.inr (Or.inr (by simpa using h))
    · simp at h

theorem string_append_left_cancel (pre a b : String) (h : pre ++ a = pre ++ b) : a = b := by
  have hdata := congrArg String.data h
  simp only [String.data_append, List.append_cancel_left_eq] at hdata
  exact String.ext hdata

theorem derived_name_inj (x p q : String)
    (hp : x = "mean_" ++ p ∨ x = "stdev_" ++ p ∨ x = "zstat_" ++ p)
    (hq : x = "mean_" ++ q ∨ x = "stdev_" ++ q ∨ x = "zstat_" ++ q) : p = q := by
  rcases hp with hp | hp | hp <;> rcases hq with hq | hq | hq
  · exact string_append_left_cancel _ _ _ (hp.symm.trans hq)
  · exact absurd (congrArg String.data (hp.symm.trans hq)) (by simp [String.data_append])
  · exact absurd (congrArg String.data (hp.symm.trans hq)) (by simp [String.data_append])
  · exact absurd (congrArg String.data (hp.symm.trans hq)) (by simp [String.data_append])
  · exact string_append_left_cancel _ _ _ (hp.symm.trans hq)
  · exact absurd (congrArg String.data (hp.symm.trans hq)) (by simp [String.data_append])
  · exact absurd (congrArg String.data (hp.symm.trans hq)) (by simp [String.data_append])
  · exact absurd (congrArg String.data (hp.symm.trans hq)) (by simp [String.data_append])
  · exact string_append_left_cancel _ _ _ (hp.symm.trans hq)

theorem derived_name_not_fixed (x p : String)
    (hp : x = "mean_" ++ p ∨ x = "stdev_" ++ p ∨ x = "zstat_" ++ p) : x ∉ fixed_names := by
  intro hmem
  simp only [fixed_names, List.mem_cons, List.mem_singleton, List.not_mem_nil, or_false] at hmem
  rcases hp with hp | hp | hp <;> subst hp <;>
    rcases hmem with h | h | h | h | h | h <;>
    exact absurd (congrArg String.data h) (by simp [String.data_append])

theorem param_outputs_nodup (GetBool : String → Bool) (name : String) :
    (param_outputs GetBool name).Nodup := by
  have h1 : "mean_" ++ name ≠ "stdev_" ++ name := fun h =>
    absurd (congrArg String.data h) (by simp [String.data_append])
  have h2 : "mean_" ++ name ≠ "zstat_" ++ name := fun h =>
    absurd (congrArg String.data h) (by simp [String.data_append])
  have h3 : "stdev_" ++ name ≠ "zstat_" ++ name := fun h =>
    absurd (congrArg String.data h) (by simp [String.data_append])
  unfold param_outputs
  cases GetBool "save-mean" <;> cases GetBool "save-std" <;> cases GetBool "save-zstat" <;>
    simp [h1, h2, h3]

theorem params_block_nodup (GetBool : String → Bool) (params : List String)
    (h : params.Nodup) : (params.flatMap (param_outputs GetBool)).Nodup := by
  induction params with
  | nil => simp
  | cons name rest ih =>
    have hnot : name ∉ rest := (List.nodup_cons.mp h).1
    have hrest : rest.Nodup := (List.nodup_cons.mp h).2
    rw [List.flatMap_cons, List.nodup_append]
    refine ⟨param_outputs_nodup GetBool name, ih hrest, ?_⟩
    intro x hx hy
    obtain ⟨other, hother, hxo⟩ := List.mem_flatMap.mp hy
    have := derived_name_inj x name other (mem_param_outputs GetBool name x hx)
      (mem_param_outputs GetBool other x hxo)
    exact hnot (this ▸ hother)

theorem fixed_block_sublist (GetBool : String → Bool) :
    List.Sublist ((fixed_switches.filter (fun entry => GetBool entry.1)).map (fun entry => entry.2))
      fixed_names :=
  (List.filter_sublist fixed_switches).map (fun entry => entry.2)

/-- C12: when the parameter names are pairwise distinct, the extra-output names are
pairwise distinct, and no extra-output name is a `mean_`, `stdev_` or `zstat_` name of
a parameter or one of the six fixed names, the list `get_outputs` returns contains no
name twice. -/
theorem get_outputs_nodup (GetBool : String → Bool) (params extra_outputs : List String)
    (hparams : params.Nodup) (hextras : extra_outputs.Nodup)
    (hderived : ∀ extra ∈ extra_outputs, ∀ name ∈ params,
      extra ≠ "mean_" ++ name ∧ extra ≠ "stdev_" ++ name ∧ extra ≠ "zstat_" ++ name)
    (hfixed : ∀ extra ∈ extra_outputs, extra ∉ fixed_names) :
    (get_outputs GetBool params extra_outputs).1.Nodup := by
  rw [get_outputs_list_eq]
  have hsub := fixed_block_sublist GetBool
  have hextras_block : (if GetBool "save-model-extras" then extra_outputs else []).Nodup := by
    split
    · exact hextras
    · exact List.nodup_nil
  have hextras_mem : ∀ x ∈ (if GetBool "save-model-extras" then extra_outputs else []),
      x ∈ extra_outputs := by
    intro x hx
    split at hx
    · exact hx
    · simp at hx
  have hall : (params.flatMap (param_outputs GetBool)
      ++ (if GetBool "save-model-extras" then extra_outputs else [])
      ++ (fixed_switches.filter (fun entry => GetBool entry.1)).map (fun entry => entry.2)).Nodup := by
    rw [List.nodup_append]
    refine ⟨?_, List.Nodup.sublist hsub (by decide), ?_⟩
    · rw [List.nodup_append]
      refine ⟨params_block_nodup GetBool params hparams, hextras_block, ?_⟩
      intro x hx hy
      obtain ⟨name, hname, hxn⟩ := List.mem_flatMap.mp hx
      have hd := hderived x (hextras_mem x hy) name hname
      rcases mem_param_outputs GetBool name x hxn with h | h | h
      · exact hd.1 h
      · exact hd.2.1 h
      · exact hd.2.2 h
    · intro x hx hy
      have hyfixed : x ∈ fixed_names := hsub.subset hy
      rcases List.mem_append.mp hx with h | h
      · obtain ⟨name, _, hxn⟩ := List.mem_flatMap.mp h
        exact derived_name_not_fixed x name (mem_param_outputs GetBool name x hxn) hyfixed
      · exact hfixed x (hextras_mem x h) hyfixed
  revert hall
  generalize params.flatMap (param_outputs GetBool)
      ++ (if GetBool "save-model-extras" then extra_outputs else [])
      ++ (fixed_switches.filter (fun entry => GetBool entry.1)).map (fun entry => entry.2)
      = all
  intro hall
  by_cases hnil : all = []
  · simp [hnil]
  · simp only [hnil, if_false]
    exact hall

/-- Witness of C12 with two parameters, one model extra and every switch on. -/
theorem get_outputs_nodup_witness :
    ["c0", "c1"].Nodup ∧ ["extra"].Nodup ∧
    (get_outputs (fun _ => true) ["c0", "c1"] ["extra"]).1.Nodup :=
  ⟨by decide, by decide,
   get_outputs_nodup (fun _ => true) ["c0", "c1"] ["extra"] (by decide) (by decide)
    (by decide) (by decide)⟩

/-! ## Result assembly -/

theorem item_names_loop_eq (output_items item_names : List String) :
    item_names_loop output_items item_names = item_names ++ output_items := by
  induction output_items generalizing item_names with
  | nil => simp [item_names_loop]
  | cons name rest ih => simp [item_names_loop, ih]

theorem save_output_loop_eq (GetVoxelDataSize : String → Int)
    (GetVoxelDataArray : String → List S) (dims_4d : List Nat)
    (output_items : List String) (fields : List (String × mxArray R S)) :
    save_output_loop GetVoxelDataSize GetVoxelDataArray dims_4d output_items fields
      = fields ++ output_items.map (fun name =>
          (name, save_output_array GetVoxelDataSize GetVoxelDataArray name dims_4d)) := by
  induction output_items generalizing fields with
  | nil => simp [save_output_loop]
  | cons name rest ih => simp [save_output_loop, ih]

theorem save_output_array_dims_eq (GetVoxelDataSize : String → Int)
    (GetVoxelDataArray : String → List S) (name : String) (nx ny nz : Nat) (rest : List Nat) :
    (save_output_array GetVoxelDataSize GetVoxelDataArray name (nx :: ny :: nz :: rest)
        : mxArray R S).dims
      = if GetVoxelDataSize name > 1 then [nx, ny, nz, (GetVoxelDataSize name).toNat]
        else [nx, ny, nz] := by
  unfold save_output_array
  by_cases h : GetVoxelDataSize name > 1
  · simp [h, push_dims, mxCreateNumericArray]
  · simp [h, push_dims, mxCreateNumericArray]

/-- C13, as amended: the array `save_output` creates for an output name, in
`fabber_wrapper.cpp` and in `fabber.cpp`, has the dimensions (nx, ny, nz) when the
series length the engine reports is at most 1, and (nx, ny, nz, n) when it is a
length n above 1. -/
theorem save_output_array_dims (GetVoxelDataSize : String → Int)
    (GetVoxelDataArray : String → List S) (output_items : List String)
    (nx ny nz nt : Nat) (log name : String) (hname : name ∈ output_items) :
    (name, save_output_array GetVoxelDataSize GetVoxelDataArray name [nx, ny, nz, nt])
      ∈ (save_output GetVoxelDataSize GetVoxelDataArray output_items [nx, ny, nz, nt] log
          : ResultRecord R S).fields ∧
    (name, save_output_array GetVoxelDataSize GetVoxelDataArray name [nx, ny, nz, nt])
      ∈ (fabber_cpp.save_output GetVoxelDataSize GetVoxelDataArray output_items [nx, ny, nz, nt]
          : ResultRecord R S).fields ∧
    (GetVoxelDataSize name ≤ 1 →
      (save_output_array GetVoxelDataSize GetVoxelDataArray name [nx, ny, nz, nt]
        : mxArray R S).dims = [nx, ny, nz]) ∧
    (1 < GetVoxelDataSize name →
      (save_output_array GetVoxelDataSize GetVoxelDataArray name [nx, ny, nz, nt]
        : mxArray R S).dims = [nx, ny, nz, (GetVoxelDataSize name).toNat]) := by
  refine ⟨?_, ?_, ?_, ?_⟩
  · simp only [save_output, save_output_loop_eq, List.nil_append, List.mem_append, List.mem_map]
    exact Or.inl ⟨name, hname, rfl⟩
  · simp only [fabber_cpp.save_output, save_output_loop_eq, List.nil_append, List.mem_map]
    exact ⟨name, hname, rfl⟩
  · intro hle
    rw [save_output_array_dims_eq]
    have : ¬ GetVoxelDataSize name > 1 := by omega
    simp [this]
  · intro hgt
    rw [save_output_array_dims_eq]
    have : GetVoxelDataSize name > 1 := hgt
    simp [this]

/-- Witness of C13 as amended: with main data of dimensions 2, 2, 1, 5 and the series
length 5, the array for `modelfit` has the dimensions 2, 2, 1, 5. -/
theorem save_output_array_dims_witness :
    "modelfit" ∈ ["modelfit"] ∧ (1 : Int) < (fun _ => 5) "modelfit" ∧
    (save_output_array (fun _ => 5) (fun _ => []) "modelfit" [2, 2, 1, 5] : mxArray Nat Nat).dims
      = [2, 2, 1, ((fun _ => 5) "modelfit" : Int).toNat] :=
  ⟨by decide, by decide,
   (save_output_array_dims (fun _ => 5) (fun _ => []) ["modelfit"] 2 2 1 5 "done" "modelfit"
      (by decide)).2.2.2 (by decide)⟩

/-- Counterexample to C13 as stated: for the series length 0, which is not 1, the
array has the three dimensions 2, 2, 1 and not the four dimensions 2, 2, 1, 0. -/
theorem save_output_array_dims_zero :
    ((fun _ => 0) "modelfit" : Int) ≠ 1 ∧
    (save_output_array (fun _ => 0) (fun _ => []) "modelfit" [2, 2, 1, 5] : mxArray Nat Nat).dims
      = [2, 2, 1] ∧
    (save_output_array (fun _ => 0) (fun _ => []) "modelfit" [2, 2, 1, 5] : mxArray Nat Nat).dims
      ≠ [2, 2, 1, 0] := by
  refine ⟨by decide, rfl, by decide⟩

/-- C14: the field names `save_output` gives to the result record are the output names
in list order followed by `log`; it assigns to the field of each output name, in list
order, the array created for that name, and last to the field `log` the string made
of the run's log text. -/
theorem save_output_fields (GetVoxelDataSize : String → Int)
    (GetVoxelDataArray : String → List S) (output_items : List String)
    (dims_4d : List Nat) (log : String) :
    (save_output GetVoxelDataSize GetVoxelDataArray output_items dims_4d log
        : ResultRecord R S).fieldnames = output_items ++ ["log"] ∧
    (save_output GetVoxelDataSize GetVoxelDataArray output_items dims_4d log
        : ResultRecord R S).fields
      = output_items.map (fun name =>
          (name, save_output_array GetVoxelDataSize GetVoxelDataArray name dims_4d))
        ++ [("log", mxCreateString log)] ∧
    mxArrayToString (mxCreateString log : mxArray R S) = some log := by
  refine ⟨?_, ?_, ?_⟩
  · simp [save_output, item_names_loop_eq]
  · simp [save_output, save_output_loop_eq]
  · simp [mxArrayToString, mxCreateString, mxIsChar]

/-! ## Integer options -/

theorem add_numeric_other_class (fab : FabberRunDataArray R S) (key : String)
    (arr : mxArray R S) (hdouble : mxIsDouble arr = false) (hsingle : mxIsSingle arr = false) :
    add_numeric fab key arr = Except.ok fab ∧
    fabber_cpp.add_numeric fab key arr = Except.error "Fabber:intOptions" := by
  simp [add_numeric, fabber_cpp.add_numeric, hdouble, hsingle]

/-- C15, evaluated at a scalar field of class `int32` named `degree`: `add_numeric` of
`fabber_wrapper.cpp` raises no error and leaves the engine object as it was, also when
reached through `set_rundata`, while `add_numeric` of `fabber.cpp` raises
`Fabber:intOptions`. -/
theorem add_numeric_accepts_int32 :
    mxIsNumeric int32_scalar = true ∧ single_value int32_scalar = true ∧
    mxIsDouble int32_scalar = false ∧ mxIsSingle int32_scalar = false ∧
    add_numeric [] "degree" int32_scalar = Except.ok [] ∧
    set_rundata_field ostream_put_double id none [] [2, 2, 1, 5] [] "degree" (some int32_scalar)
      = Except.ok [] ∧
    fabber_cpp.add_numeric [] "degree" int32_scalar = Except.error "Fabber:intOptions" := by
  refine ⟨rfl, rfl, rfl, rfl, rfl, rfl, rfl⟩

/-! ## Input validation -/

theorem mask_dims_match_iff (mask : mxArray R S) (dims_4d : List Nat)
    (h3 : mask.dims.length = 3) (h4 : dims_4d.length = 4) :
    dims_match mask dims_4d = true ↔ mask.dims = dims_4d.take 3 := by
  rw [(dims_match_spec mask dims_4d h4).1, h3]
  constructor
  · intro hall
    apply List.ext_getElem?
    intro i
    by_cases hi : i < 3
    · rw [hall i (by omega), List.getElem?_take_of_lt hi]
    · have h1 : mask.dims.length ≤ i := by omega
      have h2 : (dims_4d.take 3).length ≤ i := by
        simp only [List.length_take]
        omega
      rw [List.getElem?_eq_none h1, List.getElem?_eq_none h2]
  · intro heq i hi
    have hi3 : i < 3 := by omega
    rw [heq, List.getElem?_take_of_lt hi3]

theorem fabber_cpp_dims_match_ok (arr : mxArray R S) (dims_4d : List Nat) :
    fabber_cpp.dims_match arr dims_4d
      = if dims_match arr dims_4d = true then Except.ok ()
        else Except.error "Fabber:run:dims_match" := by
  unfold fabber_cpp.dims_match dims_match
  exact fabber_cpp_dims_match_loop_eq _ _ _ _

theorem validate_input_ok_iff (nlhs : Nat) (data mask rundata : mxArray R S) (dims : List Nat) :
    validate_input nlhs [data, mask, rundata] = Except.ok dims ↔
      nlhs ≤ 1 ∧ mxIsDouble data = true ∧ mxIsComplex data = false ∧ data.dims.length = 4 ∧
      mxIsLogical mask = true ∧ mask.dims.length = 3 ∧ mask.dims = data.dims.take 3 ∧
      mxIsStruct rundata = true ∧ mxGetNumberOfElements rundata = 1 ∧ dims = data.dims := by
  unfold validate_input
  simp only [List.length_cons, List.length_nil, Nat.zero_add, Nat.reduceAdd, ne_eq,
    not_true_eq_false, if_false, mxGetNumberOfDimensions]
  by_cases h1 : nlhs > 1
  · simp only [h1, if_true]
    constructor
    · intro h
      cases h
    · rintro ⟨hle, _⟩
      omega
  have hle : nlhs ≤ 1 := by omega
  simp only [h1, if_false]
  cases hd : mxIsDouble data
  · simp
  cases hc : mxIsComplex data
  swap
  · simp
  by_cases h4 : data.dims.length = 4
  swap
  · simp [h4]
  cases hl : mxIsLogical mask
  · simp [h4]
  by_cases h3 : mask.dims.length = 3
  swap
  · simp [h4, h3]
  have hmatch := mask_dims_match_iff mask data.dims h3 h4
  unfold check_dims
  cases hm : dims_match mask data.dims
  · have hne : ¬ mask.dims = data.dims.take 3 := fun h => by
      rw [hmatch.mpr h] at hm
      cases hm
    simp [h4, h3, hne]
  · have heq : mask.dims = data.dims.take 3 := hmatch.mp hm
    cases hs : mxIsStruct rundata
    · simp [h4, h3]
    by_cases hn : mxGetNumberOfElements rundata = 1
    · simp only [h4, h3, hn, hle, Bool.not_true, Bool.false_eq_true, Bool.or_self,
        if_false, not_true_eq_false, true_and, Except.ok.injEq]
      constructor
      · intro h
        exact ⟨heq, h.symm⟩
      · rintro ⟨_, h⟩
        exact h.symm
    · simp [h4, h3, hn]

theorem fabber_cpp_validate_input_eq_ok (nlhs : Nat) (prhs : List (mxArray R S))
    (dims : List Nat) :
    fabber_cpp.validate_input nlhs prhs = Except.ok dims ↔
      validate_input nlhs prhs = Except.ok dims := by
  unfold fabber_cpp.validate_input validate_input
  by_cases hlen : prhs.length ≠ 3
  · simp [hlen]
  by_cases h1 : nlhs > 1
  · simp [hlen, h1]
  simp only [hlen, h1, if_false]
  split
  · rename_i data mask rundata
    rw [fabber_cpp_dims_match_ok]
    unfold check_dims
    cases hm : dims_match mask data.dims
    · simp only [Bool.false_eq_true, if_false, Bool.not_false, if_true]
      split_ifs <;> simp
    · simp
  · simp

/-- C16: `validate_input` succeeds exactly when there are three inputs, at most one
output is requested, the first input is a real `double` array of rank 4, the second a
logical array of rank 3 whose dimensions are the first three of the first input, and
the third a struct with one element; on success it returns the dimensions of the
first input, and in every other case it raises an error.  The `validate_input` of
`fabber.cpp` succeeds in the same cases with the same result. -/
theorem validate_input_spec (nlhs : Nat) (prhs : List (mxArray R S)) (dims : List Nat) :
    (validate_input nlhs prhs = Except.ok dims ↔
      nlhs ≤ 1 ∧ ∃ data mask rundata, prhs = [data, mask, rundata] ∧
        mxIsDouble data = true ∧ mxIsComplex data = false ∧ data.dims.length = 4 ∧
        mxIsLogical mask = true ∧ mask.dims.length = 3 ∧ mask.dims = data.dims.take 3 ∧
        mxIsStruct rundata = true ∧ mxGetNumberOfElements rundata = 1 ∧ dims = data.dims) ∧
    (fabber_cpp.validate_input nlhs prhs = Except.ok dims ↔
      validate_input nlhs prhs = Except.ok dims) ∧
    ((∀ result, validate_input nlhs prhs ≠ Except.ok result) →
      ∃ id, validate_input nlhs prhs = Except.error id) := by
  refine ⟨?_, fabber_cpp_validate_input_eq_ok nlhs prhs dims, ?_⟩
  · constructor
    · intro hok
      rcases prhs with _ | ⟨data, _ | ⟨mask, _ | ⟨rundata, _ | ⟨extra, rest⟩⟩⟩⟩
      · simp [validate_input] at hok
      · simp [validate_input] at hok
      · simp [validate_input] at hok
      · obtain ⟨h1, h2⟩ := (validate_input_ok_iff nlhs data mask rundata dims).mp hok
        exact ⟨h1, data, mask, rundata, rfl, h2⟩
      · simp [validate_input] at hok
    · rintro ⟨h1, data, mask, rundata, rfl, h2⟩
      exact (validate_input_ok_iff nlhs data mask rundata dims).mpr ⟨h1, h2⟩
  · intro hnone
    cases hres : validate_input nlhs prhs with
    | error id => exact ⟨id, rfl⟩
    | ok result => exact absurd hres (hnone result)

/-- Witness of C16 at main data of dimensions 2, 2, 1, 2 with a mask of dimensions
2, 2, 1 and a struct of one element. -/
theorem validate_input_spec_witness :
    validate_input 1 [small_data, small_mask, one_struct] = Except.ok [2, 2, 1, 2] ∧
    (1 ≤ 1 ∧ ∃ data mask rundata, [small_data, small_mask, one_struct] = [data, mask, rundata] ∧
      mxIsDouble data = true ∧ mxIsComplex data = false ∧ data.dims.length = 4 ∧
      mxIsLogical mask = true ∧ mask.dims.length = 3 ∧ mask.dims = data.dims.take 3 ∧
      mxIsStruct rundata = true ∧ mxGetNumberOfElements rundata = 1 ∧
      [2, 2, 1, 2] = data.dims) :=
  ⟨rfl, (validate_input_spec 1 [small_data, small_mask, one_struct] [2, 2, 1, 2]).1.mp rfl⟩

/-! ## Extent and mask -/

theorem int_mul_small (a b : Nat) (h : a * b < 2 ^ 31) :
    int_mul (a : Int) (b : Int) = some ((a * b : Nat) : Int) := by
  have h1 : -(2 ^ 31 : Int) ≤ (a : Int) * (b : Int) := by
    have : (0 : Int) ≤ (a : Int) * (b : Int) := by positivity
    omega
  have h2 : (a : Int) * (b : Int) < 2 ^ 31 := by exact_mod_cast h
  unfold int_mul
  rw [if_pos ⟨h1, h2⟩, Nat.cast_mul]

theorem mask_loop_eq (maskdata_orig : List Bool) (left i : Nat) (maskdata : List Int)
    (h : i + left ≤ maskdata_orig.length) :
    mask_loop maskdata_orig left i maskdata
      = some (maskdata ++ ((maskdata_orig.drop i).take left).map
          (fun flag => if flag then (1 : Int) else 0)) := by
  induction left generalizing i maskdata with
  | zero => simp [mask_loop]
  | succ left ih =>
    have hi : i < maskdata_orig.length := by omega
    have hdrop : maskdata_orig.drop i = maskdata_orig[i] :: maskdata_orig.drop (i + 1) :=
      List.drop_eq_getElem_cons hi
    simp only [mask_loop, List.get?_eq_getElem?, List.getElem?_eq_getElem hi]
    rw [ih (i + 1) _ (by omega), hdrop]
    simp only [List.take_succ_cons, List.map_cons, List.append_assoc, List.cons_append,
      List.nil_append]

/-- What `set_extent` does within the range of `int`: for a data and mask pair that
`validate_input` accepts, with (nx, ny, nz) the first three dimensions of the data, the
mask has nx*ny*nz elements; when nx, ny, nz, nx*ny and nx*ny*nz are all below 2^31, the
assertion passes and `set_extent` installs the extent (nx, ny, nz) with nx*ny*nz flags,
flag `i` being 1 for a true and 0 for a false element `i` of the mask. -/
theorem set_extent_installs (nlhs : Nat) (data mask rundata : mxArray R S)
    (fab : FabberRunDataArray R S) (nx ny nz nt : Nat)
    (haccept : validate_input nlhs [data, mask, rundata] = Except.ok [nx, ny, nz, nt])
    (hmask : (logicalData mask).length = mxGetNumberOfElements mask)
    (hnx : nx < 2 ^ 31) (hny : ny < 2 ^ 31) (hnz : nz < 2 ^ 31)
    (hxy : nx * ny < 2 ^ 31) (hxyz : nx * ny * nz < 2 ^ 31) :
    mxGetNumberOfElements mask = nx * ny * nz ∧
    ∃ flags, set_extent fab [nx, ny, nz, nt] mask
        = Except.ok (fab ++ [Effect.SetExtent nx ny nz flags]) ∧
      flags.length = nx * ny * nz ∧
      ∀ i, i < nx * ny * nz →
        flags[i]? = ((logicalData mask)[i]?).map (fun flag => if flag then (1 : Int) else 0) := by
  obtain ⟨_, _, _, _, _, _, hdims, _, _, hdata⟩ :=
    (validate_input_ok_iff nlhs data mask rundata [nx, ny, nz, nt]).mp haccept
  have hmdims : mask.dims = [nx, ny, nz] := by
    rw [hdims, ← hdata]
    rfl
  have hnumel : mxGetNumberOfElements mask = nx * ny * nz := by
    simp [mxGetNumberOfElements, hmdims, Nat.mul_assoc]
  refine ⟨hnumel, (logicalData mask).map (fun flag => if flag then (1 : Int) else 0), ?_, ?_, ?_⟩
  · have hlen : (int_mul (nx : Int) (ny : Int)).bind (fun nxy => int_mul nxy (nz : Int))
        = some ((nx * ny * nz : Nat) : Int) := by
      rw [int_mul_small nx ny hxy, Option.some_bind]
      exact int_mul_small (nx * ny) nz hxyz
    have hloop := mask_loop_eq (logicalData mask) (nx * ny * nz) 0 [] (by omega)
    rw [← hnumel, ← hmask] at hloop
    simp only [List.drop_zero, List.take_length, List.nil_append] at hloop
    simp only [set_extent, List.getD_cons_zero, List.getD_cons_succ, int_of_mwSize_small nx hnx,
      int_of_mwSize_small ny hny, int_of_mwSize_small nz hnz, hlen, Int.toNat_ofNat]
    have hnonneg : ¬ ((nx * ny * nz : Nat) : Int) < 0 := by omega
    rw [if_neg hnonneg, if_neg (by simp [hnumel])]
    rw [← hnumel, ← hmask, hloop]
  · simp [hmask, hnumel]
  · intro i _
    rw [List.getElem?_map]

/-- An instance of `set_extent_installs`: main data of dimensions 2, 2, 1, 2 and the
mask true, false, true, true give the extent (2, 2, 1) with the flags 1, 0, 1, 1. -/
theorem set_extent_installs_witness :
    validate_input 1 [small_data, small_mask, one_struct] = Except.ok [2, 2, 1, 2] ∧
    (logicalData small_mask).length = mxGetNumberOfElements small_mask ∧
    set_extent [] [2, 2, 1, 2] small_mask = Except.ok [Effect.SetExtent 2 2 1 [1, 0, 1, 1]] ∧
    (mxGetNumberOfElements small_mask = 2 * 2 * 1 ∧
      ∃ flags, set_extent [] [2, 2, 1, 2] small_mask
          = Except.ok ([] ++ [Effect.SetExtent ((2 : Nat) : Int) ((2 : Nat) : Int)
              ((1 : Nat) : Int) flags]) ∧
        flags.length = 2 * 2 * 1 ∧
        ∀ i, i < 2 * 2 * 1 →
          flags[i]? = ((logicalData small_mask)[i]?).map
            (fun flag => if flag then (1 : Int) else 0)) :=
  ⟨rfl, rfl, rfl,
   set_extent_installs 1 small_data small_mask one_struct [] 2 2 1 2 rfl rfl
    (by decide) (by decide) (by decide) (by decide) (by decide)⟩

/-- C17, evaluated at empty main data of dimensions 65536, 32768, 2, 0 with a mask of
dimensions 65536, 32768, 2: `validate_input` accepts the pair and the mask has as many
elements, 2^32, as nx*ny*nz, yet the product does not fit the `int` in which
`set_extent` computes `len`, so the comparison of the assertion is not reached with
the element count and no extent is installed. -/
theorem set_extent_wide_mask :
    validate_input 1 [wide_data, wide_mask, one_struct] = Except.ok [65536, 32768, 2, 0] ∧
    (logicalData wide_mask).length = mxGetNumberOfElements wide_mask ∧
    mxGetNumberOfElements wide_mask = 65536 * 32768 * 2 ∧
    set_extent ([] : FabberRunDataArray Nat Nat) [65536, 32768, 2, 0] wide_mask
      = Except.error undefined_behaviour := by
  have hlen : (logicalData wide_mask).length = 4294967296 :=
    List.length_replicate 4294967296 true
  have hnumel : mxGetNumberOfElements wide_mask = 4294967296 := by decide
  exact ⟨rfl, hlen.trans hnumel.symm, by decide, rfl⟩

/-! ## Model libraries -/

theorem string_find_lt (delimiter : Char) (text : List Char) (pos : Nat)
    (h : string_find delimiter text = some pos) : pos < text.length := by
  induction text generalizing pos with
  | nil => simp [string_find] at h
  | cons ch rest ih =>
    simp only [string_find] at h
    split at h
    · cases h
      simp
    · cases hrest : string_find delimiter rest with
      | none => simp [hrest] at h
      | some inner =>
        simp only [hrest, Option.map_some', Option.some.injEq] at h
        have := ih inner hrest
        simp only [List.length_cons]
        omega

theorem string_find_none (delimiter : Char) (text : List Char) (h : delimiter ∉ text) :
    string_find delimiter text = none := by
  induction text with
  | nil => rfl
  | cons ch rest ih =>
    have hne : ch ≠ delimiter := fun heq => h (heq ▸ List.mem_cons_self _ _)
    simp [string_find, hne, ih (fun hin => h (List.mem_cons_of_mem _ hin))]

theorem string_find_piece (delimiter : Char) (piece rest : List Char)
    (h : delimiter ∉ piece) :
    string_find delimiter (piece ++ delimiter :: rest) = some piece.length := by
  induction piece with
  | nil => simp [string_find]
  | cons ch piece ih =>
    have hne : ch ≠ delimiter := fun heq => h (heq ▸ List.mem_cons_self _ _)
    simp [string_find, hne, ih (fun hin => h (List.mem_cons_of_mem _ hin))]

theorem load_models_loop_total (load : String → Bool) (fuel : Nat) (loadmodels : List Char)
    (log : List String × List String) (h : loadmodels.length ≤ fuel) :
    ∃ result, load_models_loop load fuel loadmodels log = some result := by
  induction fuel generalizing loadmodels log with
  | zero =>
    have hnil : loadmodels = [] := List.length_eq_zero.mp (Nat.le_zero.mp h)
    subst hnil
    exact ⟨log, rfl⟩
  | succ fuel ih =>
    obtain ⟨attempts, warnings⟩ := log
    cases hfind : string_find ';' loadmodels with
    | none => exact ⟨(attempts, warnings), by simp [load_models_loop, hfind]⟩
    | some pos =>
      have hpos := string_find_lt ';' loadmodels pos hfind
      simp only [load_models_loop, hfind]
      apply ih
      simp only [List.length_drop]
      omega

theorem load_models_loop_pieces (load : String → Bool) (pieces : List (List Char))
    (tail : List Char) (hpieces : ∀ piece ∈ pieces, ';' ∉ piece) (htail : ';' ∉ tail)
    (fuel : Nat) (attempts warnings : List String)
    (hfuel : ((pieces.map (fun piece => piece ++ [';'])).flatten ++ tail).length ≤ fuel) :
    load_models_loop load fuel ((pieces.map (fun piece => piece ++ [';'])).flatten ++ tail)
        (attempts, warnings)
      = some (attempts ++ pieces.map String.mk,
          warnings ++ (pieces.map String.mk).filter (fun path => !load path)) := by
  induction pieces generalizing fuel attempts warnings with
  | nil =>
    have hfind : string_find ';' tail = none := string_find_none ';' tail htail
    cases fuel with
    | zero => simp [load_models_loop, hfind]
    | succ fuel => simp [load_models_loop, hfind]
  | cons piece rest ih =>
    have hpiece : ';' ∉ piece := hpieces piece (List.mem_cons_self _ _)
    have hshape : ((piece :: rest).map (fun piece => piece ++ [';'])).flatten ++ tail
        = piece ++ ';' :: ((rest.map (fun piece => piece ++ [';'])).flatten ++ tail) := by
      simp
    rw [hshape] at hfuel ⊢
    have hfind := string_find_piece ';' piece
      ((rest.map (fun piece => piece ++ [';'])).flatten ++ tail) hpiece
    cases fuel with
    | zero => simp at hfuel
    | succ fuel =>
      have hdrop : (piece ++ ';' :: ((rest.map (fun piece => piece ++ [';'])).flatten ++ tail)).drop
          (piece.length + 1) = (rest.map (fun piece => piece ++ [';'])).flatten ++ tail := by
        rw [List.drop_append_eq_append_drop]
        simp
      have htake : (piece ++ ';' :: ((rest.map (fun piece => piece ++ [';'])).flatten ++ tail)).take
          piece.length = piece := by
        rw [List.take_append_eq_append_take]
        simp
      simp only [load_models_loop, hfind, hdrop, htake]
      rw [ih (fun w hw => hpieces w (List.mem_cons_of_mem _ hw)) fuel _ _ (by
        simp only [List.length_append, List.length_cons] at hfuel ⊢
        omega)]
      cases hload : load (String.mk piece) <;> simp [hload, List.filter_cons]

theorem load_models_never_out_of_fuel (load : String → Bool)
    (rundata_struc : List (String × Option (mxArray R S))) :
    load_models load rundata_struc ≠ Except.error out_of_fuel := by
  unfold load_models
  cases hfield : load_models_field rundata_struc "" with
  | error e =>
    have hub : ∀ (fields : List (String × Option (mxArray R S))) (start : String) (id : String),
        load_models_field fields start = Except.error id → id = undefined_behaviour := by
      intro fields
      induction fields with
      | nil =>
        intro start id h
        simp [load_models_field] at h
      | cons entry rest ih =>
        intro start id h
        obtain ⟨field_name, field⟩ := entry
        simp only [load_models_field] at h
        split at h
        · split at h
          · exact ih _ id h
          · simp only [Except.error.injEq] at h
            exact h.symm
        · exact ih _ id h
    have := hub rundata_struc "" e hfield
    subst this
    simp [undefined_behaviour, out_of_fuel]
  | ok loadmodels =>
    obtain ⟨result, hresult⟩ :=
      load_models_loop_total load loadmodels.data.length loadmodels.data ([], []) (Nat.le_refl _)
    simp only [hresult]
    intro h
    cases h

/-- C18, evaluated at the loadmodels value `a;b` with every load succeeding:
`load_models` attempts the path `a` only; the entry `b`, which no semicolon follows,
is never attempted.  With the value `a;b;` both are attempted, in order. -/
theorem load_models_drops_last_entry :
    load_models (fun _ => true) two_libraries = Except.ok (["a"], []) ∧
    load_models (fun _ => true)
        ([("loadmodels",
            some ⟨mxClassID.mxCHAR_CLASS, false, [1, 4], mxData.chars "a;b;"⟩)]
          : List (String × Option (mxArray Nat Nat)))
      = Except.ok (["a", "b"], []) := by
  refine ⟨rfl, rfl⟩

end Fabber
